import Mathlib

/-!
# bbox-exporter: the session-scoped refresh cycle

A shallow embedding of `internal/bbox` (client.go, models.go) and
`internal/exporter` (exporter.go), with the properties of the refresh cycle,
the payload repair step and the numeric-tolerant decoder stated over it, and
with what a scrape of /metrics (cmd/bb_exporter/main.go) reads while a cycle
writes.

Conventions.
* A Go `[]byte` is a `List Nat` of byte values; a Go `string` that the program
  treats as text (routes, labels, decoded JSON strings) is a Lean `String`.
* Go `int` and `int64` are `Int`; where the source relies on 64-bit wrap-around
  the arithmetic is written with an explicit `% 2 ^ 64`.
* Calls into the Go standard library (`net/http`, `encoding/json`, `time`) whose
  result depends on the outside world are parameters of the model.
* Times and durations are counted in nanoseconds.
-/

namespace BBox

/-- Equality of Go results `(value, error)` is decidable. -/
instance instDecidableEqExcept {ε α : Type} [DecidableEq ε] [DecidableEq α] :
    DecidableEq (Except ε α)
  | .ok a, .ok b => if h : a = b then isTrue (by rw [h]) else isFalse (by intro h1; cases h1; exact h rfl)
  | .error a, .error b =>
    if h : a = b then isTrue (by rw [h]) else isFalse (by intro h1; cases h1; exact h rfl)
  | .ok _, .error _ => isFalse (by intro h; cases h)
  | .error _, .ok _ => isFalse (by intro h; cases h)

/-! ## Bytes -/

/-- A Go byte slice: every element is a byte value, `0 ≤ b < 256`. -/
abbrev Bytes := List Nat

/-- The bytes of an ASCII string literal. -/
def ascii (s : String) : Bytes := s.toList.map Char.toNat

/-! ## client.go: constants and the payload repair -/

def loginRoute : String := "/api/v1/login"

def logoutRoute : String := "/api/v1/logout"

def committedBug : Bytes := ascii "committedas\":\n\t\x7d"

def committedFix : Bytes := ascii "committedas\":0\n\t\x7d"

/-- The scan of `bytes.ReplaceAll(s, old, new)` for a non-empty `old`: left to
right, every non-overlapping instance of `old` is replaced by `new`. The first
argument counts the bytes of a matched instance that are still to be skipped.
(For an empty `old` Go inserts `new` at every rune boundary; the program only
calls it with the non-empty `committedBug`, and that case is not modelled.) -/
def replaceFrom (old new : Bytes) : Nat → Bytes → Bytes
  | _, [] => []
  | skip + 1, _ :: s => replaceFrom old new skip s
  | 0, b :: s =>
    if old.isPrefixOf (b :: s) then new ++ replaceFrom old new (old.length - 1) s
    else b :: replaceFrom old new 0 s

/-- Go `bytes.ReplaceAll(s, old, new)`, for a non-empty `old`. -/
def ReplaceAll (s old new : Bytes) : Bytes := replaceFrom old new 0 s

/-- The payload repair of `fetchSingle` (client.go line 126):
`bytes.ReplaceAll(body, []byte(committedBug), []byte(committedFix))`. -/
def repair (body : Bytes) : Bytes := ReplaceAll body committedBug committedFix

/-! ## models.go: `FlexibleInt.UnmarshalJSON`

`fmt.Sscan(string(b), &v)` with `v int64` is followed through the Go standard
library: `fmt` (`Sscan`, `doScan`, `scanOne`, `scanInt`, `SkipSpace`,
`scanBasePrefix`, `scanNumber`, `accept`, `peek`), `unicode/utf8`
(`DecodeRune`) and `strconv` (`ParseInt`, `ParseUint`, `underscoreOK`). -/

def RuneError : Nat := 0xFFFD

def RuneSelf : Nat := 0x80

/-- Go `utf8.DecodeRune(p)`: the first rune of `p` and its width in bytes. An
invalid or incomplete encoding gives `(RuneError, 1)`, empty input
`(RuneError, 0)`. -/
def DecodeRune : Bytes → Nat × Nat
  | [] => (RuneError, 0)
  | p0 :: rest =>
    if p0 < 0x80 then (p0, 1)
    else if p0 < 0xC2 then (RuneError, 1)
    else if p0 < 0xE0 then
      match rest with
      | b1 :: _ =>
        if b1 < 0x80 ∨ 0xBF < b1 then (RuneError, 1)
        else ((p0 % 0x20) * 0x40 + b1 % 0x40, 2)
      | _ => (RuneError, 1)
    else if p0 < 0xF0 then
      let lo := if p0 = 0xE0 then 0xA0 else 0x80
      let hi := if p0 = 0xED then 0x9F else 0xBF
      match rest with
      | b1 :: b2 :: _ =>
        if b1 < lo ∨ hi < b1 then (RuneError, 1)
        else if b2 < 0x80 ∨ 0xBF < b2 then (RuneError, 1)
        else ((p0 % 0x10) * 0x1000 + (b1 % 0x40) * 0x40 + b2 % 0x40, 3)
      | _ => (RuneError, 1)
    else if p0 < 0xF5 then
      let lo := if p0 = 0xF0 then 0x90 else 0x80
      let hi := if p0 = 0xF4 then 0x8F else 0xBF
      match rest with
      | b1 :: b2 :: b3 :: _ =>
        if b1 < lo ∨ hi < b1 then (RuneError, 1)
        else if b2 < 0x80 ∨ 0xBF < b2 then (RuneError, 1)
        else if b3 < 0x80 ∨ 0xBF < b3 then (RuneError, 1)
        else ((p0 % 0x08) * 0x40000 + (b1 % 0x40) * 0x1000 + (b2 % 0x40) * 0x40 + b3 % 0x40, 4)
      | _ => (RuneError, 1)
    else (RuneError, 1)

/-- The runes that successive `ReadRune` calls deliver for the input `p`
(`fmt.readRune.ReadRune` over a `stringReader`); the first argument bounds the
number of runes and `p.length` is always enough. -/
def runesLoop : Nat → Bytes → List Nat
  | 0, _ => []
  | _, [] => []
  | fuel + 1, b :: p =>
    (DecodeRune (b :: p)).1 :: runesLoop fuel ((b :: p).drop (DecodeRune (b :: p)).2)

/-- The rune sequence of a Go string. -/
def runes (p : Bytes) : List Nat := runesLoop p.length p

/-- The table `space` of fmt/scan.go, as `isSpace(r)`. -/
def isSpace (r : Nat) : Bool :=
  (0x0009 ≤ r ∧ r ≤ 0x000d) ∨ r = 0x0020 ∨ r = 0x0085 ∨ r = 0x00a0 ∨ r = 0x1680 ∨
  (0x2000 ≤ r ∧ r ≤ 0x200a) ∨ (0x2028 ≤ r ∧ r ≤ 0x2029) ∨ r = 0x202f ∨ r = 0x205f ∨
  r = 0x3000

/-- The scanner state `ss` of fmt/scan.go: the runes not yet read and the token
buffer `buf` (only ASCII runes are ever written to it, so it is kept as the
list of its bytes). -/
structure ss where
  input : List Nat
  buf : Bytes
deriving DecidableEq, Repr

inductive NumError where
  /-- Case `strconv.ErrSyntax`. -/
  | ErrSyntax
  /-- Case `strconv.ErrRange`. -/
  | ErrRange
  /-- Case `baseError`: invalid base. -/
  | ErrBase
deriving DecidableEq, Repr

/-- The errors `fmt.Sscan` can return when scanning one `int64`. -/
inductive ScanError where
  /-- The input ended where the value was expected (an end-of-file error). -/
  | eof
  /-- Message "expected integer". -/
  | expectedInteger
  /-- A `*strconv.NumError` for the token. -/
  | num (err : NumError) (tok : Bytes)
deriving DecidableEq, Repr

/-- Go `ss.peek(ok)`. -/
def ss.peek (s : ss) (ok : Bytes) : Bool :=
  match s.input with
  | [] => false
  | r :: _ => decide (r ∈ ok)

/-- Go `ss.accept(ok)`, that is `consume(ok, true)`: a rune of `ok` is moved to
the token buffer, any other rune is left unread. -/
def ss.accept (s : ss) (ok : Bytes) : Bool × ss :=
  match s.input with
  | [] => (false, s)
  | r :: rs => if r ∈ ok then (true, ⟨rs, s.buf ++ [r]⟩) else (false, s)

/-- Go `ss.SkipSpace()` with `nlIsSpace = true` (as `Sscan` sets it). -/
def SkipSpace : List Nat → List Nat
  | [] => []
  | r :: rs =>
    if r = 13 ∧ (ss.peek ⟨rs, []⟩ [10]) = true then SkipSpace rs
    else if r = 10 then SkipSpace rs
    else if !isSpace r then r :: rs
    else SkipSpace rs

def sign : Bytes := ascii "+-"

def binaryDigits : Bytes := ascii "01"

def octalDigits : Bytes := ascii "01234567"

def decimalDigits : Bytes := ascii "0123456789"

def hexadecimalDigits : Bytes := ascii "0123456789aAbBcCdDeEfF"

/-- Go `ss.scanBasePrefix()`: base, digit set, and whether a zero was found. -/
def ss.scanBasePrefix (s : ss) : Nat × Bytes × Bool × ss :=
  if !s.peek (ascii "0") then (0, decimalDigits ++ ascii "_", false, s)
  else
    let s := (s.accept (ascii "0")).2
    if s.peek (ascii "bB") then (0, binaryDigits ++ ascii "_", true, (s.accept (ascii "bB")).2)
    else if s.peek (ascii "oO") then (0, octalDigits ++ ascii "_", true, (s.accept (ascii "oO")).2)
    else if s.peek (ascii "xX") then
      (0, hexadecimalDigits ++ ascii "_", true, (s.accept (ascii "xX")).2)
    else (0, octalDigits ++ ascii "_", true, s)

/-- The loop `for s.accept(digits) {}` of `scanNumber`. -/
def acceptLoop (digits : Bytes) : List Nat → Bytes → ss
  | [], buf => ⟨[], buf⟩
  | r :: rs, buf => if r ∈ digits then acceptLoop digits rs (buf ++ [r]) else ⟨r :: rs, buf⟩

/-- Go `ss.scanNumber(digits, haveDigits)`: the token, and the state after it. -/
def ss.scanNumber (s : ss) (digits : Bytes) (haveDigits : Bool) : Except ScanError ss :=
  if !haveDigits then
    match s.input with
    | [] => .error .eof
    | _ =>
      let (ok, s1) := s.accept digits
      if !ok then .error .expectedInteger
      else .ok (acceptLoop digits s1.input s1.buf)
  else .ok (acceptLoop digits s.input s.buf)

/-- Go `strconv.lower(c)`: `c | ('x' - 'X')`. -/
def lower (c : Nat) : Nat := c ||| 0x20

/-- The digit loop of `strconv.ParseUint`; the result carries the value and
whether an underscore was seen. -/
def parseUintLoop (base : Nat) (base0 : Bool) (cutoff maxVal : Nat) :
    Bytes → Nat → Bool → Except NumError (Nat × Bool)
  | [], n, underscores => .ok (n, underscores)
  | c :: cs, n, underscores =>
    if c = 95 ∧ base0 = true then parseUintLoop base base0 cutoff maxVal cs n true
    else
      let d : Option Nat :=
        if 48 ≤ c ∧ c ≤ 57 then some (c - 48)
        else if 97 ≤ lower c ∧ lower c ≤ 122 then some (lower c - 97 + 10)
        else none
      match d with
      | none => .error .ErrSyntax
      | some d =>
        if d ≥ base then .error .ErrSyntax
        else if n ≥ cutoff then .error .ErrRange
        else
          let n := n * base % 2 ^ 64
          let n1 := (n + d) % 2 ^ 64
          if n1 < n ∨ n1 > maxVal then .error .ErrRange
          else parseUintLoop base base0 cutoff maxVal cs n1 underscores

/-- The loop of `strconv.underscoreOK`; `saw` is the last character class seen
(`'^'`, `'0'`, `'_'` or `'!'`). -/
def underscoreLoop (hex : Bool) : Bytes → Nat → Bool
  | [], saw => saw ≠ 95
  | c :: cs, saw =>
    if (48 ≤ c ∧ c ≤ 57) ∨ (hex = true ∧ 97 ≤ lower c ∧ lower c ≤ 102) then
      underscoreLoop hex cs 48
    else if c = 95 then
      if saw ≠ 48 then false else underscoreLoop hex cs 95
    else if saw = 95 then false
    else underscoreLoop hex cs 33

/-- Go `strconv.underscoreOK(s)`. -/
def underscoreOK (s : Bytes) : Bool :=
  let s := if s.length ≥ 1 ∧ (s.head? = some 45 ∨ s.head? = some 43) then s.drop 1 else s
  match s with
  | c0 :: c1 :: rest =>
    if c0 = 48 ∧ (lower c1 = 98 ∨ lower c1 = 111 ∨ lower c1 = 120) then
      underscoreLoop (lower c1 = 120) rest 48
    else underscoreLoop false s 94
  | _ => underscoreLoop false s 94

/-- Go `strconv.ParseUint(s, base, 64)`. -/
def ParseUint (s : Bytes) (base : Nat) : Except NumError Nat :=
  if s = [] then .error .ErrSyntax
  else
    let base0 := base = 0
    let pre : Option (Nat × Bytes) :=
      if 2 ≤ base ∧ base ≤ 36 then some (base, s)
      else if base = 0 then
        match s with
        | 48 :: c1 :: c2 :: rest =>
          if lower c1 = 98 then some (2, c2 :: rest)
          else if lower c1 = 111 then some (8, c2 :: rest)
          else if lower c1 = 120 then some (16, c2 :: rest)
          else some (8, c1 :: c2 :: rest)
        | 48 :: rest => some (8, rest)
        | _ => some (10, s)
      else none
    match pre with
    | none => .error .ErrBase
    | some (b, digits) =>
      let maxUint64 := 2 ^ 64 - 1
      let cutoff := maxUint64 / b + 1
      let maxVal := 2 ^ 64 - 1
      match parseUintLoop b base0 cutoff maxVal digits 0 false with
      | .error e => .error e
      | .ok (n, underscores) =>
        if underscores = true ∧ !underscoreOK s then .error .ErrSyntax
        else .ok n

/-- Go `strconv.ParseInt(s, base, 64)`. -/
def ParseInt (s : Bytes) (base : Nat) : Except NumError Int :=
  if s = [] then .error .ErrSyntax
  else
    let neg := s.head? = some 45
    let s1 := if s.head? = some 43 then s.drop 1 else if s.head? = some 45 then s.drop 1 else s
    let un : Except NumError Nat :=
      match ParseUint s1 base with
      | .error .ErrRange => .ok (2 ^ 64 - 1)
      | .error e => .error e
      | .ok un => .ok un
    match un with
    | .error e => .error e
    | .ok un =>
      let cutoff := 2 ^ 63
      if ¬ neg ∧ un ≥ cutoff then .error .ErrRange
      else if neg ∧ un > cutoff then .error .ErrRange
      else
        let n : Int := un
        .ok (if neg then -n else n)

/-- Go `ss.scanInt('v', 64)`: with `bitSize = 64` the final overflow check
`(i << 0) >> 0 != i` never fires. -/
def scanInt (input : List Nat) : Except ScanError Int :=
  match SkipSpace input with
  | [] => .error .eof
  | r :: rs =>
    let s := (ss.accept ⟨r :: rs, []⟩ sign).2
    let (base, digits, haveDigits, s) := s.scanBasePrefix
    match s.scanNumber digits haveDigits with
    | .error e => .error e
    | .ok s =>
      match ParseInt s.buf base with
      | .error e => .error (.num e s.buf)
      | .ok i => .ok i

/-- Go `fmt.Sscan(str, &v)` for `v int64`: one value is scanned; what follows
the token in `str` is never read (`nlIsEnd` is false). -/
def Sscan (str : Bytes) : Except ScanError Int := scanInt (runes str)

/-- The first statement of `UnmarshalJSON` (models.go lines 219-221): one pair
of surrounding quotes is trimmed, if present. -/
def trimQuotes (b : Bytes) : Bytes :=
  if b.length > 1 ∧ b[0]? = some 34 ∧ b[b.length - 1]? = some 34 then
    (b.take (b.length - 1)).drop 1
  else b

/-- Method `(*FlexibleInt).UnmarshalJSON(b)`: the value stored in `*f`, or the
error returned (in which case `*f` is not written). -/
def FlexibleInt.UnmarshalJSON (b : Bytes) : Except ScanError Int :=
  let b := trimQuotes b
  if b.length = 0 ∨ b = ascii "null" then .ok 0
  else
    match Sscan b with
    | .error err => .error err
    | .ok v => .ok v

/-! ## models.go: payload types

Every field of the source is kept, under its Go name. The two `float64`
fields (`Occupation`) hold finite values decoded from JSON and are kept as
rationals; `Refresh` never reads them. -/

structure CPUTimes where
  Total : Int
  User : Int
  Nice : Int
  System : Int
  /-- Go field `IO`. -/
  Io : Int
  Idle : Int
  IRQ : Int
deriving DecidableEq, Repr, Inhabited

structure CPUProcess where
  Created : Int
  Running : Int
  Blocked : Int
deriving DecidableEq, Repr, Inhabited

structure CPUTemperature where
  Main : Int
deriving DecidableEq, Repr, Inhabited

structure CPUData where
  Time : CPUTimes
  Process : CPUProcess
  Temperature : CPUTemperature
deriving DecidableEq, Repr, Inhabited

structure CPUDevice where
  CPU : CPUData
deriving DecidableEq, Repr, Inhabited

/-- Mirrors the /api/v1/device/cpu payload. -/
structure DeviceCPU where
  Device : CPUDevice
deriving DecidableEq, Repr, Inhabited

structure MemoryStats where
  Total : Int
  Free : Int
  Cached : Int
  CommittedAs : Int
deriving DecidableEq, Repr, Inhabited

structure MemDevice where
  Mem : MemoryStats
deriving DecidableEq, Repr, Inhabited

/-- Mirrors the /api/v1/device/mem payload. -/
structure DeviceMem where
  Device : MemDevice
deriving DecidableEq, Repr, Inhabited

/-- Type `FlexibleInt int64`. -/
abbrev FlexibleInt := Int

structure WanRx where
  Packets : Int
  Bytes : FlexibleInt
  PacketsErrors : Int
  PacketsDiscards : Int
  Occupation : Rat
  Bandwidth : Int
  MaxBandwidth : Int
  ContractualBandwidth : Int
deriving DecidableEq, Repr, Inhabited

structure WanTx where
  Packets : Int
  Bytes : FlexibleInt
  PacketsErrors : Int
  PacketsDiscards : Int
  Occupation : Rat
  Bandwidth : Int
  MaxBandwidth : Int
  ContractualBandwidth : Int
deriving DecidableEq, Repr, Inhabited

structure WanIPThroughput where
  Rx : WanRx
  Tx : WanTx
deriving DecidableEq, Repr, Inhabited

structure WanIP where
  Stats : WanIPThroughput
deriving DecidableEq, Repr, Inhabited

structure Wan where
  IP : WanIP
deriving DecidableEq, Repr, Inhabited

/-- Mirrors the /api/v1/wan/ip/stats payload. -/
structure WanIPStats where
  Wan : Wan
deriving DecidableEq, Repr, Inhabited

structure WanInternet where
  State : Int
deriving DecidableEq, Repr, Inhabited

structure WanInterface where
  ID : Int
  Default : Int
  State : Int
deriving DecidableEq, Repr, Inhabited

structure WanIP6Address where
  IPAddress : String
  Status : String
  Valid : String
  Preferred : String
deriving DecidableEq, Repr, Inhabited

structure WanIP6Prefix where
  Prefix : String
  Status : String
  Valid : String
  Preferred : String
deriving DecidableEq, Repr, Inhabited

structure WanIPAddress where
  Address : String
  CgnatEnable : Int
  MaptEnable : Int
  State : String
  Gateway : String
  DNSServers : String
  Subnet : String
  DNSServersV6 : String
  IP6State : String
  IP6Address : List WanIP6Address
  IP6Prefix : List WanIP6Prefix
  Mac : String
  MTU : Int
deriving DecidableEq, Repr, Inhabited

structure WanLink where
  State : String
  /-- Go field `Type`. -/
  Type_ : String
deriving DecidableEq, Repr, Inhabited

structure WanIPDetails where
  Internet : WanInternet
  Interface : WanInterface
  IP : WanIPAddress
  Link : WanLink
deriving DecidableEq, Repr, Inhabited

/-- Mirrors the /api/v1/wan/ip payload. -/
structure WanIPInfo where
  Wan : WanIPDetails
deriving DecidableEq, Repr, Inhabited

structure LanRx where
  Bytes : FlexibleInt
  Packets : Int
  PacketsErrors : Int
  PacketsDiscards : Int
deriving DecidableEq, Repr, Inhabited

structure LanTx where
  Bytes : FlexibleInt
  Packets : Int
  PacketsErrors : Int
  PacketsDiscards : Int
deriving DecidableEq, Repr, Inhabited

structure LanThroughput where
  Rx : LanRx
  Tx : LanTx
deriving DecidableEq, Repr, Inhabited

structure Lan where
  Stats : LanThroughput
deriving DecidableEq, Repr, Inhabited

/-- Mirrors the /api/v1/lan/stats payload. -/
structure LanStats where
  Lan : Lan
deriving DecidableEq, Repr, Inhabited

structure WirelessRx where
  Bytes : FlexibleInt
  Packets : Int
  PacketsErrors : Int
  PacketsDiscards : Int
deriving DecidableEq, Repr, Inhabited

structure WirelessTx where
  Bytes : FlexibleInt
  Packets : Int
  PacketsErrors : Int
  PacketsDiscards : Int
deriving DecidableEq, Repr, Inhabited

structure WirelessThroughput where
  Rx : WirelessRx
  Tx : WirelessTx
deriving DecidableEq, Repr, Inhabited

structure WirelessSSID where
  ID : Int
  Stats : WirelessThroughput
deriving DecidableEq, Repr, Inhabited

structure Wireless where
  SSID : WirelessSSID
deriving DecidableEq, Repr, Inhabited

/-- Mirrors the /api/v1/wireless/{band}/stats payload. -/
structure WirelessStats where
  Wireless : Wireless
deriving DecidableEq, Repr, Inhabited

/-! ## client.go: the session client

The outside world is a parameter: `Env` answers `time.Now`,
`http.NewRequestWithContext` and `httpClient.Do`. The answer to a request may
depend on the client that sends it, on the context it carries and on every
request sent before it, which covers cookies, server state and the passing of
time. Times are counted in nanoseconds, as `time.Duration` is. -/

/-- Go `time.Second`, in nanoseconds. -/
def Second : Nat := 1000000000

/-- A `context.Context`, as far as the code uses it: the time at which it
expires, `none` when it never does. Cancelling by the caller is left out
(main.go passes `context.Background()`). -/
structure Context where
  deadline : Option Nat
deriving DecidableEq, Repr

/-- Go `context.Background()`. -/
def Background : Context := ⟨none⟩

/-- Go `context.WithTimeout(parent, timeout)`, called at time `now`: the context
that expires at `now + timeout`, or the parent itself when that expires
sooner. -/
def WithTimeout (parent : Context) (now timeout : Nat) : Context :=
  match parent.deadline with
  | none => ⟨some (now + timeout)⟩
  | some cur => if cur < now + timeout then parent else ⟨some (now + timeout)⟩

structure Request where
  Method : String
  URL : String
  Header : List (String × String)
  /-- The form values sent as the body (`url.Values`), empty for no body. -/
  Form : List (String × String)
  /-- The context handed to `http.NewRequestWithContext`. -/
  ctx : Context
deriving DecidableEq, Repr

structure Response where
  StatusCode : Int
  /-- The bytes that reading `resp.Body` delivers. -/
  Body : Bytes
  /-- The error that reading `resp.Body` ends with, if it is not a clean EOF. -/
  BodyErr : Option String
deriving DecidableEq, Repr

/-- Constant `defaultTimeout = 10 * time.Second`. -/
def defaultTimeout : Nat := 10 * Second

/-- The `http.Client` built by `NewClient` (its cookie jar is part of `Env`). -/
structure HTTPClient where
  Timeout : Nat
deriving DecidableEq, Repr

structure Env where
  /-- The error of `http.NewRequestWithContext(ctx, method, url, body)`, if any. -/
  NewRequest : String → String → Option String
  /-- The result of `httpClient.Do(req)` on the client `httpClient`, given the
  requests sent so far. -/
  Do : HTTPClient → List Request → Request → Except String Response
  /-- The reading of `time.Now()`, given the requests sent so far. -/
  Now : List Request → Nat

/-- The error values the client and the exporter build. -/
inductive Error where
  /-- An error value returned by a library call. -/
  | lib (msg : String)
  /-- Go `fmt.Errorf(msg + ": %w", err)`. -/
  | wrap (msg : String) (err : Error)
  /-- Go `fmt.Errorf("login failed: status=%d body=%s", status, body)`. -/
  | loginFailed (status : Int) (body : Bytes)
  /-- Go `fmt.Errorf("status %d for %s body=%s", status, route, body)`. -/
  | status (code : Int) (route : String) (body : Bytes)
  /-- Go `fmt.Errorf("empty response for %s", route)`. -/
  | emptyResponse (route : String)
deriving DecidableEq, Repr

/-- The methods of `Client` that `Refresh` calls. -/
inductive Op where
  | Login
  | Logout
  | FetchCPU
  | FetchMem
  | FetchWanIPStats
  | FetchWanIPInfo
  | FetchLanStats
  | FetchWireless24Stats
  | FetchWireless5Stats
deriving DecidableEq, Repr

/-- What a client method returns besides the error. -/
inductive Value where
  | unit
  | cpu (v : DeviceCPU)
  | mem (v : DeviceMem)
  | wanInfo (v : WanIPInfo)
  | wanStats (v : WanIPStats)
  | lanStats (v : LanStats)
  | wireless (v : WirelessStats)
deriving DecidableEq, Repr

/-- What a run does that can be observed from outside. -/
inductive Event where
  /-- A client method is entered. -/
  | call (op : Op)
  /-- Go `httpClient.Do(req)` is called. -/
  | send (req : Request)
  /-- A client method returns. -/
  | ret (op : Op) (res : Except Error Value)
  /-- Go `log.Printf(msg + ": %v", err)`. -/
  | log (msg : String) (err : Error)
deriving DecidableEq, Repr

/-- The requests sent in a run, in order. -/
def sent : List Event → List Request
  | [] => []
  | .send req :: es => req :: sent es
  | _ :: es => sent es

/-- The client methods called in a run, in order. -/
def calls : List Event → List Op
  | [] => []
  | .call op :: es => op :: calls es
  | _ :: es => calls es

/-- The returns of client methods in a run, in order: the method and its result. -/
def returns : List Event → List (Op × Except Error Value)
  | [] => []
  | .ret op res :: es => (op, res) :: returns es
  | _ :: es => returns es

/-- The seven fetch methods, in the order `Refresh` has them in its source. -/
def fetchOps : List Op :=
  [.FetchCPU, .FetchMem, .FetchWanIPInfo, .FetchWanIPStats, .FetchLanStats,
   .FetchWireless24Stats, .FetchWireless5Stats]

/-- The message `Refresh` wraps the error of each fetch in. -/
def fetchLabel : Op → String
  | .FetchCPU => "fetch cpu"
  | .FetchMem => "fetch mem"
  | .FetchWanIPInfo => "fetch wan info"
  | .FetchWanIPStats => "fetch wan stats"
  | .FetchLanStats => "fetch lan stats"
  | .FetchWireless24Stats => "fetch wireless 2.4 stats"
  | .FetchWireless5Stats => "fetch wireless 5 stats"
  | .Login => "login"
  | .Logout => "logout failed"


structure Client where
  baseURL : String
  password : String
  httpClient : HTTPClient
deriving DecidableEq, Repr

/-- Go `strings.HasPrefix(s, p)`. -/
def HasPrefix (s p : String) : Bool := p.toList.isPrefixOf s.toList

/-- Go `strings.TrimSuffix(s, "/")`. -/
def TrimSuffixSlash (s : String) : String :=
  if s.toList.getLast? = some '/' then String.mk s.toList.dropLast else s

/-- Go `NewClient(baseURL, password)`. -/
def NewClient (baseURL password : String) : Except Error Client :=
  if baseURL = "" then .error (.lib "baseURL is required")
  else if password = "" then .error (.lib "password is required")
  else .ok ⟨TrimSuffixSlash baseURL, password, ⟨defaultTimeout⟩⟩

/-- Method `(*Client).url(route)`. -/
def Client.url (c : Client) (route : String) : String :=
  if HasPrefix route "/" then c.baseURL ++ route else c.baseURL ++ "/" ++ route

/-- The request `Login` builds. -/
def Client.loginRequest (c : Client) (ctx : Context) : Request :=
  ⟨"POST", c.url loginRoute, [("Content-Type", "application/x-www-form-urlencoded")],
    [("password", c.password)], ctx⟩

/-- Method `(*Client).Login(ctx)`: the error, if any, and the events of the
call. `hist` holds the events of the run so far. -/
def Client.Login (env : Env) (c : Client) (ctx : Context) (hist : List Event) :
    Except Error Unit × List Event :=
  match env.NewRequest "POST" (c.url loginRoute) with
  | some err => (.error (.wrap "create login request" (.lib err)), [])
  | none =>
    match env.Do c.httpClient (sent hist) (c.loginRequest ctx) with
    | .error err => (.error (.wrap "login request" (.lib err)), [.send (c.loginRequest ctx)])
    | .ok resp =>
      if resp.StatusCode ≥ 400 then
        (.error (.loginFailed resp.StatusCode (resp.Body.take 512)), [.send (c.loginRequest ctx)])
      else (.ok (), [.send (c.loginRequest ctx)])

/-- The request `Logout` builds. -/
def Client.logoutRequest (c : Client) (ctx : Context) : Request :=
  ⟨"POST", c.url logoutRoute, [], [], ctx⟩

/-- Method `(*Client).Logout(ctx)`. -/
def Client.Logout (env : Env) (c : Client) (ctx : Context) (hist : List Event) :
    Except Error Unit × List Event :=
  match env.NewRequest "POST" (c.url logoutRoute) with
  | some err => (.error (.wrap "create logout request" (.lib err)), [])
  | none =>
    match env.Do c.httpClient (sent hist) (c.logoutRequest ctx) with
    | .error err => (.error (.wrap "logout request" (.lib err)), [.send (c.logoutRequest ctx)])
    | .ok _ => (.ok (), [.send (c.logoutRequest ctx)])

/-- The request `get` builds. -/
def Client.getRequest (c : Client) (ctx : Context) (route : String) : Request :=
  ⟨"GET", c.url route, [], [], ctx⟩

/-- Method `(*Client).get(ctx, route)`. -/
def Client.get (env : Env) (c : Client) (ctx : Context) (route : String) (hist : List Event) :
    Except Error Bytes × List Event :=
  match env.NewRequest "GET" (c.url route) with
  | some err => (.error (.wrap ("build request for " ++ route) (.lib err)), [])
  | none =>
    match env.Do c.httpClient (sent hist) (c.getRequest ctx route) with
    | .error err =>
      (.error (.wrap ("request " ++ route) (.lib err)), [.send (c.getRequest ctx route)])
    | .ok resp =>
      if resp.StatusCode ≥ 400 then
        (.error (.status resp.StatusCode route (resp.Body.take 512)),
          [.send (c.getRequest ctx route)])
      else
        match resp.BodyErr with
        | some err =>
          (.error (.wrap ("read " ++ route ++ " response") (.lib err)),
            [.send (c.getRequest ctx route)])
        | none => (.ok resp.Body, [.send (c.getRequest ctx route)])

/-- Go `fetchSingle[T](ctx, c, route)`. `Unmarshal` stands for
`json.Unmarshal(body, &payload)` with `payload []T`: the decoded slice, or the
decoding error. -/
def fetchSingle {T : Type} (Unmarshal : Bytes → Except String (List T)) (env : Env)
    (ctx : Context) (c : Client) (route : String) (hist : List Event) :
    Except Error T × List Event :=
  match c.get env ctx route hist with
  | (.error err, evs) => (.error err, evs)
  | (.ok body, evs) =>
    let body := ReplaceAll body committedBug committedFix
    match Unmarshal body with
    | .error err => (.error (.wrap ("decode response for " ++ route) (.lib err)), evs)
    | .ok payload =>
      match payload with
      | [] => (.error (.emptyResponse route), evs)
      | first :: _ => (.ok first, evs)

/-- The parts of the Go standard library whose tables or code are not
reproduced: `json.Unmarshal` into a slice of each payload type, and
`unicode.SimpleFold` on the runes beyond ASCII. -/
structure Lib where
  UnmarshalDeviceCPU : Bytes → Except String (List DeviceCPU)
  UnmarshalDeviceMem : Bytes → Except String (List DeviceMem)
  UnmarshalWanIPStats : Bytes → Except String (List WanIPStats)
  UnmarshalWanIPInfo : Bytes → Except String (List WanIPInfo)
  UnmarshalLanStats : Bytes → Except String (List LanStats)
  UnmarshalWirelessStats : Bytes → Except String (List WirelessStats)
  /-- Go `unicode.SimpleFold(r)` for `0x80 ≤ r ≤ MaxRune` (the `caseOrbit` and
  case-range tables). -/
  caseOrbit : Nat → Nat

def Client.FetchCPU (lib : Lib) (env : Env) (c : Client) (ctx : Context)
    (hist : List Event) :
    Except Error DeviceCPU × List Event :=
  fetchSingle lib.UnmarshalDeviceCPU env ctx c "/api/v1/device/cpu" hist

def Client.FetchMem (lib : Lib) (env : Env) (c : Client) (ctx : Context)
    (hist : List Event) :
    Except Error DeviceMem × List Event :=
  fetchSingle lib.UnmarshalDeviceMem env ctx c "/api/v1/device/mem" hist

def Client.FetchWanIPStats (lib : Lib) (env : Env) (c : Client) (ctx : Context)
    (hist : List Event) :
    Except Error WanIPStats × List Event :=
  fetchSingle lib.UnmarshalWanIPStats env ctx c "/api/v1/wan/ip/stats" hist

def Client.FetchWanIPInfo (lib : Lib) (env : Env) (c : Client) (ctx : Context)
    (hist : List Event) :
    Except Error WanIPInfo × List Event :=
  fetchSingle lib.UnmarshalWanIPInfo env ctx c "/api/v1/wan/ip" hist

def Client.FetchLanStats (lib : Lib) (env : Env) (c : Client) (ctx : Context)
    (hist : List Event) :
    Except Error LanStats × List Event :=
  fetchSingle lib.UnmarshalLanStats env ctx c "/api/v1/lan/stats" hist

def Client.FetchWireless24Stats (lib : Lib) (env : Env) (c : Client) (ctx : Context)
    (hist : List Event) :
    Except Error WirelessStats × List Event :=
  fetchSingle lib.UnmarshalWirelessStats env ctx c "/api/v1/wireless/24/stats" hist

def Client.FetchWireless5Stats (lib : Lib) (env : Env) (c : Client) (ctx : Context)
    (hist : List Event) :
    Except Error WirelessStats × List Event :=
  fetchSingle lib.UnmarshalWirelessStats env ctx c "/api/v1/wireless/5/stats" hist

/-- The route each client method requests. -/
def route : Op → String
  | .Login => loginRoute
  | .Logout => logoutRoute
  | .FetchCPU => "/api/v1/device/cpu"
  | .FetchMem => "/api/v1/device/mem"
  | .FetchWanIPStats => "/api/v1/wan/ip/stats"
  | .FetchWanIPInfo => "/api/v1/wan/ip"
  | .FetchLanStats => "/api/v1/lan/stats"
  | .FetchWireless24Stats => "/api/v1/wireless/24/stats"
  | .FetchWireless5Stats => "/api/v1/wireless/5/stats"

/-- The request each client method sends, when it sends one. -/
def Client.request (c : Client) (ctx : Context) : Op → Request
  | .Login => c.loginRequest ctx
  | .Logout => c.logoutRequest ctx
  | op => c.getRequest ctx (route op)

/-- The events `evs` of a client method are at most the sending of `req`. -/
def SendsOnly (req : Request) (evs : List Event) : Prop := evs = [] ∨ evs = [.send req]

/-! ## `strings.EqualFold`

Followed through the Go source (strings/strings.go, unicode/letter.go), over
the runes of the two strings. The strings compared here are decoded from JSON
and so are valid UTF-8: a byte below `RuneSelf` is an ASCII rune and the
byte-wise fast path is the rune-wise one. -/

def MaxRune : Nat := 0x10FFFF

/-- The table `asciiFold` of unicode/tables.go. -/
def asciiFold (r : Nat) : Nat :=
  if 65 ≤ r ∧ r ≤ 90 then r + 32
  else if r = 107 then 0x212A
  else if r = 115 then 0x017F
  else if 97 ≤ r ∧ r ≤ 122 then r - 32
  else r

/-- Go `unicode.SimpleFold(r)`. -/
def SimpleFold (lib : Lib) (r : Nat) : Nat :=
  if r > MaxRune then r
  else if r < 128 then asciiFold r
  else lib.caseOrbit r

/-- The loop `for r != sr && r < tr { r = unicode.SimpleFold(r) }`. The orbits
of the Unicode tables have at most four members; the first argument bounds the
number of steps. -/
def foldWalk (lib : Lib) : Nat → Nat → Nat → Nat → Nat
  | 0, r, _, _ => r
  | fuel + 1, r, sr, tr => if r ≠ sr ∧ r < tr then foldWalk lib fuel (SimpleFold lib r) sr tr else r

/-- The part of `strings.EqualFold` after the label `hasUnicode`. -/
def equalFoldUnicode (lib : Lib) : List Nat → List Nat → Bool
  | [], t => t.length = 0
  | _ :: _, [] => false
  | sr :: s, tr :: t =>
    if tr = sr then equalFoldUnicode lib s t
    else
      let lo := if tr < sr then tr else sr
      let hi := if tr < sr then sr else tr
      if hi < RuneSelf then
        if 65 ≤ lo ∧ lo ≤ 90 ∧ hi = lo + 32 then equalFoldUnicode lib s t else false
      else if foldWalk lib 8 (SimpleFold lib lo) lo hi = hi then equalFoldUnicode lib s t
      else false

/-- The ASCII fast path of `strings.EqualFold`. -/
def equalFoldASCII (lib : Lib) : List Nat → List Nat → Bool
  | sr :: s, tr :: t =>
    if sr ≥ RuneSelf ∨ tr ≥ RuneSelf then equalFoldUnicode lib (sr :: s) (tr :: t)
    else if tr = sr then equalFoldASCII lib s t
    else
      let lo := if tr < sr then tr else sr
      let hi := if tr < sr then sr else tr
      if 65 ≤ lo ∧ lo ≤ 90 ∧ hi = lo + 32 then equalFoldASCII lib s t else false
  | [], t => t.length = 0
  | _ :: _, [] => false

/-- Go `strings.EqualFold(s, t)`. -/
def EqualFold (lib : Lib) (s t : String) : Bool :=
  equalFoldASCII lib (s.toList.map Char.toNat) (t.toList.map Char.toNat)

/-! ## exporter.go -/

/-- A `*prometheus.GaugeVec`: the value of each label combination that has one. -/
abbrev GaugeVec := List (List String × Int)

/-- Go `(*GaugeVec).Reset()`. -/
def GaugeVec.Reset (_ : GaugeVec) : GaugeVec := []

/-- Go `(*GaugeVec).WithLabelValues(lvs...)`: the child for the label values
`lvs`, created with the value zero when the vector has none. -/
def GaugeVec.WithLabelValues (m : GaugeVec) (lvs : List String) : GaugeVec :=
  if m.any (fun entry => entry.1 = lvs) then m else m ++ [(lvs, 0)]

/-- Go `Set(v)` on the child that `WithLabelValues(lvs...)` returned. -/
def GaugeVec.Set (m : GaugeVec) (lvs : List String) (v : Int) : GaugeVec :=
  m.map (fun entry => if entry.1 = lvs then (entry.1, v) else entry)

/-- The number of times `m` must be halved to come below `2^53`, as far as
`fuel` halvings go. -/
def excessBits : Nat → Nat → Nat
  | 0, _ => 0
  | fuel + 1, m => if m < 2 ^ 53 then 0 else excessBits fuel (m / 2) + 1

/-- Go `float64(n)` for an integer `n` of at most 64 bits, as `int` and `int64`
are: the nearest number with a mantissa of 53 bits, a tie going to the one with
the even mantissa. It is an integer again and is kept as one; for `|n| < 2^53`
it is `n` itself. -/
def float64 (n : Int) : Int :=
  if n.natAbs < 2 ^ 53 then n
  else
    let drop := excessBits 64 n.natAbs
    let q := n.natAbs / 2 ^ drop
    let r := n.natAbs % 2 ^ drop
    let m := if 2 ^ (drop - 1) < r ∨ (r = 2 ^ (drop - 1) ∧ q % 2 = 1) then q + 1 else q
    if n < 0 then -((m * 2 ^ drop : Nat) : Int) else ((m * 2 ^ drop : Nat) : Int)

/-- The struct `gauges`, with the current value of every gauge. A gauge holds
the `float64` it was last set to; every value `Refresh` sets is `float64(n)` for
an integer `n`, or the constant 1 or 0, and so is an integer. -/
structure gauges where
  cpuTotal : Int
  cpuUser : Int
  cpuSystem : Int
  cpuIdle : Int
  cpuTemperature : Int
  memFree : Int
  memTotal : Int
  wanRxBytes : Int
  wanTxBytes : Int
  wanRxContractual : Int
  wanTxContractual : Int
  wanIPState : Int
  wanInternetState : Int
  wanInterfaceState : Int
  wanCgnatEnabled : Int
  wanInfo : GaugeVec
  lanRxBytes : Int
  lanTxBytes : Int
  wireless24RxBytes : Int
  wireless24TxBytes : Int
  wireless5RxBytes : Int
  wireless5TxBytes : Int

/-- Two gauge structs are equal when every gauge is. -/
instance instDecidableEqGauges : DecidableEq gauges := fun a b =>
  decidable_of_iff
    (a.cpuTotal = b.cpuTotal ∧
      a.cpuUser = b.cpuUser ∧
      a.cpuSystem = b.cpuSystem ∧
      a.cpuIdle = b.cpuIdle ∧
      a.cpuTemperature = b.cpuTemperature ∧
      a.memFree = b.memFree ∧
      a.memTotal = b.memTotal ∧
      a.wanRxBytes = b.wanRxBytes ∧
      a.wanTxBytes = b.wanTxBytes ∧
      a.wanRxContractual = b.wanRxContractual ∧
      a.wanTxContractual = b.wanTxContractual ∧
      a.wanIPState = b.wanIPState ∧
      a.wanInternetState = b.wanInternetState ∧
      a.wanInterfaceState = b.wanInterfaceState ∧
      a.wanCgnatEnabled = b.wanCgnatEnabled ∧
      a.wanInfo = b.wanInfo ∧
      a.lanRxBytes = b.lanRxBytes ∧
      a.lanTxBytes = b.lanTxBytes ∧
      a.wireless24RxBytes = b.wireless24RxBytes ∧
      a.wireless24TxBytes = b.wireless24TxBytes ∧
      a.wireless5RxBytes = b.wireless5RxBytes ∧
      a.wireless5TxBytes = b.wireless5TxBytes)
    (by cases a; cases b; simp)

structure Exporter where
  client : Client
  g : gauges
deriving DecidableEq

/-- Go `New(client)`: every gauge starts at zero and the info vector is empty. -/
def New (client : Client) : Exporter :=
  ⟨client, ⟨0, 0, 0, 0, 0, 0, 0, 0, 0, 0, 0, 0, 0, 0, 0, [], 0, 0, 0, 0, 0, 0⟩⟩

/-- The cycle timeout of `Refresh`, `30 * time.Second`. -/
def refreshTimeout : Nat := 30 * Second

/-- The label values of the `bb_wan_ip_info` entry (exporter.go lines 163-187). -/
def wanInfoLabels (wanInfo : WanIPInfo) : List String :=
  let ipv6Addrs := wanInfo.Wan.IP.IP6Address.map (fun a => a.IPAddress)
  let ipv6Prefixes := wanInfo.Wan.IP.IP6Prefix.map (fun p => p.Prefix)
  [wanInfo.Wan.IP.Address,
   wanInfo.Wan.IP.Gateway,
   wanInfo.Wan.IP.DNSServers,
   wanInfo.Wan.IP.DNSServersV6,
   wanInfo.Wan.IP.Subnet,
   wanInfo.Wan.IP.Mac,
   wanInfo.Wan.IP.State,
   wanInfo.Wan.IP.IP6State,
   String.intercalate "," ipv6Addrs,
   String.intercalate "," ipv6Prefixes,
   wanInfo.Wan.Link.State,
   wanInfo.Wan.Link.Type_,
   toString wanInfo.Wan.IP.MaptEnable,
   toString wanInfo.Wan.IP.MTU]

/-- The writes of exporter.go lines 141-196 in source order, one per call that
changes a collector: every `Set` of a gauge, and for the info vector its
`Reset`, the `WithLabelValues` that creates the new child and the `Set(1)` on
that child. -/
def Exporter.updates (lib : Lib) (cpu : DeviceCPU) (mem : DeviceMem) (wanInfo : WanIPInfo)
    (wanStats : WanIPStats) (lanStats : LanStats) (wireless24Stats wireless5Stats : WirelessStats) :
    List (gauges → gauges) :=
  [fun g => { g with cpuTotal := float64 cpu.Device.CPU.Time.Total },
   fun g => { g with cpuUser := float64 cpu.Device.CPU.Time.User },
   fun g => { g with cpuSystem := float64 cpu.Device.CPU.Time.System },
   fun g => { g with cpuIdle := float64 cpu.Device.CPU.Time.Idle },
   fun g => { g with cpuTemperature := float64 cpu.Device.CPU.Temperature.Main },
   fun g => { g with memTotal := float64 mem.Device.Mem.Total },
   fun g => { g with memFree := float64 mem.Device.Mem.Free },
   fun g => { g with wanRxBytes := float64 wanStats.Wan.IP.Stats.Rx.Bytes },
   fun g => { g with wanTxBytes := float64 wanStats.Wan.IP.Stats.Tx.Bytes },
   fun g => { g with wanRxContractual := float64 wanStats.Wan.IP.Stats.Rx.ContractualBandwidth },
   fun g => { g with wanTxContractual := float64 wanStats.Wan.IP.Stats.Tx.ContractualBandwidth },
   fun g => { g with wanInternetState := float64 wanInfo.Wan.Internet.State },
   fun g => { g with wanInterfaceState := float64 wanInfo.Wan.Interface.State },
   fun g => { g with wanIPState := if EqualFold lib wanInfo.Wan.IP.State "up" then 1 else 0 },
   fun g => { g with wanCgnatEnabled := float64 wanInfo.Wan.IP.CgnatEnable },
   fun g => { g with wanInfo := g.wanInfo.Reset },
   fun g => { g with wanInfo := g.wanInfo.WithLabelValues (wanInfoLabels wanInfo) },
   fun g => { g with wanInfo := g.wanInfo.Set (wanInfoLabels wanInfo) 1 },
   fun g => { g with lanRxBytes := float64 lanStats.Lan.Stats.Rx.Bytes },
   fun g => { g with lanTxBytes := float64 lanStats.Lan.Stats.Tx.Bytes },
   fun g => { g with wireless24RxBytes := float64 wireless24Stats.Wireless.SSID.Stats.Rx.Bytes },
   fun g => { g with wireless24TxBytes := float64 wireless24Stats.Wireless.SSID.Stats.Tx.Bytes },
   fun g => { g with wireless5RxBytes := float64 wireless5Stats.Wireless.SSID.Stats.Rx.Bytes },
   fun g => { g with wireless5TxBytes := float64 wireless5Stats.Wireless.SSID.Stats.Tx.Bytes }]

/-- The gauges after a list of writes. -/
def gauges.apply (g : gauges) (writes : List (gauges → gauges)) : gauges :=
  writes.foldl (fun acc write => write acc) g

/-- What one run of `Refresh` leaves behind: the error returned (`none` for
`nil`), the gauges, and the events of the run. -/
structure Run where
  err : Option Error
  g : gauges
  events : List Event
deriving DecidableEq

/-- One call of a client method from `Refresh`, with its call and return
recorded around the events of the method itself. -/
def invoke {T : Type} (op : Op) (val : T → Value)
    (method : List Event → Except Error T × List Event) (hist : List Event) :
    Except Error T × List Event :=
  ((method (hist ++ [.call op])).1,
    [.call op] ++ (method (hist ++ [.call op])).2 ++
      [.ret op (match (method (hist ++ [.call op])).1 with
        | .ok v => .ok (val v)
        | .error err => .error err)])

/-- The statements of `Refresh` that follow the `defer` of the logout
(exporter.go lines 112-198). -/
def Exporter.scrape (lib : Lib) (env : Env) (e : Exporter) (ctx : Context)
    (hist : List Event) : Run :=
  match invoke .FetchCPU .cpu (e.client.FetchCPU lib env ctx) hist with
  | (.error err, t1) => ⟨some (.wrap "fetch cpu" err), e.g, t1⟩
  | (.ok cpu, t1) =>
  match invoke .FetchMem .mem (e.client.FetchMem lib env ctx) (hist ++ t1) with
  | (.error err, t2) => ⟨some (.wrap "fetch mem" err), e.g, t1 ++ t2⟩
  | (.ok mem, t2) =>
  match invoke .FetchWanIPInfo .wanInfo (e.client.FetchWanIPInfo lib env ctx) (hist ++ t1 ++ t2) with
  | (.error err, t3) => ⟨some (.wrap "fetch wan info" err), e.g, t1 ++ t2 ++ t3⟩
  | (.ok wanInfo, t3) =>
  match invoke .FetchWanIPStats .wanStats (e.client.FetchWanIPStats lib env ctx)
      (hist ++ t1 ++ t2 ++ t3) with
  | (.error err, t4) => ⟨some (.wrap "fetch wan stats" err), e.g, t1 ++ t2 ++ t3 ++ t4⟩
  | (.ok wanStats, t4) =>
  match invoke .FetchLanStats .lanStats (e.client.FetchLanStats lib env ctx)
      (hist ++ t1 ++ t2 ++ t3 ++ t4) with
  | (.error err, t5) => ⟨some (.wrap "fetch lan stats" err), e.g, t1 ++ t2 ++ t3 ++ t4 ++ t5⟩
  | (.ok lanStats, t5) =>
  match invoke .FetchWireless24Stats .wireless (e.client.FetchWireless24Stats lib env ctx)
      (hist ++ t1 ++ t2 ++ t3 ++ t4 ++ t5) with
  | (.error err, t6) =>
    ⟨some (.wrap "fetch wireless 2.4 stats" err), e.g, t1 ++ t2 ++ t3 ++ t4 ++ t5 ++ t6⟩
  | (.ok wireless24Stats, t6) =>
  match invoke .FetchWireless5Stats .wireless (e.client.FetchWireless5Stats lib env ctx)
      (hist ++ t1 ++ t2 ++ t3 ++ t4 ++ t5 ++ t6) with
  | (.error err, t7) =>
    ⟨some (.wrap "fetch wireless 5 stats" err), e.g, t1 ++ t2 ++ t3 ++ t4 ++ t5 ++ t6 ++ t7⟩
  | (.ok wireless5Stats, t7) =>
    ⟨none,
      e.g.apply (Exporter.updates lib cpu mem wanInfo wanStats lanStats wireless24Stats
        wireless5Stats),
      t1 ++ t2 ++ t3 ++ t4 ++ t5 ++ t6 ++ t7⟩

/-- The context `Refresh` works under (exporter.go line 100): Go
`context.WithTimeout(ctx, 30*time.Second)`, made when `Refresh` is entered. -/
def cycleContext (env : Env) (ctx : Context) (hist : List Event) : Context :=
  WithTimeout ctx (env.Now (sent hist)) refreshTimeout

/-- Method `(*Exporter).Refresh(ctx)`. `hist` holds the events before the call;
the result holds the events of this run only. The context with the timeout is
made when `Refresh` is entered and is handed to every call below; its `cancel`
is deferred first and so runs last, after the deferred logout. -/
def Exporter.Refresh (lib : Lib) (env : Env) (e : Exporter) (ctx : Context)
    (hist : List Event) : Run :=
  let ctx := cycleContext env ctx hist
  match invoke .Login (fun _ => .unit) (e.client.Login env ctx) hist with
  | (.error err, t0) => ⟨some (.wrap "login" err), e.g, t0⟩
  | (.ok _, t0) =>
    -- the deferred function runs when the statements below have returned
    let body := e.scrape lib env ctx (hist ++ t0)
    let out := invoke .Logout (fun _ => .unit) (e.client.Logout env ctx)
      (hist ++ t0 ++ body.events)
    let logged : List Event :=
      match out.1 with
      | .error err => [.log "logout failed" err]
      | .ok _ => []
    ⟨body.err, body.g, t0 ++ body.events ++ out.2 ++ logged⟩

/-- The environment `env2` has the clock of `env1` and answers every request
that is not for the logout route of `c` as `env1` does. -/
def SameButLogout (c : Client) (env1 env2 : Env) : Prop :=
  (∀ m u, u ≠ c.url logoutRoute → env2.NewRequest m u = env1.NewRequest m u) ∧
  (∀ hc h req, req.URL ≠ c.url logoutRoute → env2.Do hc h req = env1.Do hc h req) ∧
  env2.Now = env1.Now

/-- The environments `env1` and `env2` have the same clock, and for the client
methods `ops` of `c` called under `ctx` they build the request alike and answer
it alike at every point. -/
def Agree (c : Client) (ctx : Context) (ops : List Op) (env1 env2 : Env) : Prop :=
  (∀ m, ∀ op ∈ ops,
    env2.NewRequest m (c.url (route op)) = env1.NewRequest m (c.url (route op))) ∧
  (∀ h, ∀ op ∈ ops,
    env2.Do c.httpClient h (c.request ctx op) = env1.Do c.httpClient h (c.request ctx op)) ∧
  env2.Now = env1.Now

/-- The result of the fetch method `op` with its value wrapped, so that the
seven fetch methods can be spoken of together (`Login` and `Logout` included
for completeness). -/
def Client.fetch (lib : Lib) (env : Env) (c : Client) (ctx : Context) (op : Op)
    (hist : List Event) : Except Error Value :=
  match op with
  | .Login => (c.Login env ctx hist).1.map (fun _ => Value.unit)
  | .Logout => (c.Logout env ctx hist).1.map (fun _ => Value.unit)
  | .FetchCPU => (c.FetchCPU lib env ctx hist).1.map Value.cpu
  | .FetchMem => (c.FetchMem lib env ctx hist).1.map Value.mem
  | .FetchWanIPStats => (c.FetchWanIPStats lib env ctx hist).1.map Value.wanStats
  | .FetchWanIPInfo => (c.FetchWanIPInfo lib env ctx hist).1.map Value.wanInfo
  | .FetchLanStats => (c.FetchLanStats lib env ctx hist).1.map Value.lanStats
  | .FetchWireless24Stats => (c.FetchWireless24Stats lib env ctx hist).1.map Value.wireless
  | .FetchWireless5Stats => (c.FetchWireless5Stats lib env ctx hist).1.map Value.wireless

/-! ## Concrete inputs

The example device answers a `POST` with status 200 and no body, and a `GET`
with a one-element JSON array, as the real one does. `json.Unmarshal` is a
parameter of the model; the decoders below give what it gives on the few
bodies the examples serve, and an error on every other body. A request takes
the example device a millisecond. -/

/-- A client as `NewClient "http://192.168.1.254/" "secret"` returns it. -/
def demoClient : Client := ⟨"http://192.168.1.254", "secret", ⟨defaultTimeout⟩⟩

/-- An exporter whose gauges hold the values of an earlier cycle. -/
def demoExporter : Exporter :=
  ⟨demoClient,
    ⟨100, 40, 20, 40, 55, 2048, 4096, 7, 8, 1000, 500, 1, 2, 1, 0,
      [(["192.0.2.1", "192.0.2.254", "", "", "", "", "Up", "", "", "", "Up", "", "0", "1500"], 1)],
      11, 12, 13, 14, 15, 16⟩⟩

/-- The body `[{}]`: one object, every field absent. -/
def bareBody : Bytes := ascii "[\x7b\x7d]"

/-- The body `[{"wan":{"ip":{"state":"Up"}}}]`. -/
def wanUpBody : Bytes := ascii "[\x7b\"wan\":\x7b\"ip\":\x7b\"state\":\"Up\"\x7d\x7d\x7d]"

/-- The body `[{"device":{"cpu":{"time":{"total":250,"user":40}}}}]`. -/
def cpuBusyBody : Bytes :=
  ascii "[\x7b\"device\":\x7b\"cpu\":\x7b\"time\":\x7b\"total\":250,\"user\":40\x7d\x7d\x7d\x7d]"

/-- A WAN info payload whose IP state is "Up" and whose other fields are zero. -/
def wanInfoUp : WanIPInfo :=
  ⟨⟨⟨0⟩, ⟨0, 0, 0⟩, ⟨"", 0, 0, "Up", "", "", "", "", "", [], [], "", 0⟩, ⟨"", ""⟩⟩⟩

/-- A CPU payload with a total time of 250 and a user time of 40. -/
def cpuBusy : DeviceCPU := ⟨⟨⟨⟨250, 40, 0, 0, 0, 0, 0⟩, ⟨0, 0, 0⟩, ⟨0⟩⟩⟩⟩

/-- What `json.Unmarshal` makes of the example bodies: `[{}]` is one element
with every field zero, `[]` is no element, the body in `known` is the element
that goes with it, and the empty body is an error. -/
def decode {T : Type} [Inhabited T] (known : Option (Bytes × T)) (body : Bytes) :
    Except String (List T) :=
  if body = bareBody then .ok [default]
  else if body = ascii "[]" then .ok []
  else if body = [] then .error "unexpected end of JSON input"
  else
    match known with
    | some (text, value) => if body = text then .ok [value] else .error "not an example body"
    | none => .error "not an example body"

/-- The decoders of the examples, and a fold table that is the identity beyond
ASCII. -/
def demoLib : Lib :=
  ⟨decode (some (cpuBusyBody, cpuBusy)), decode none, decode none,
   decode (some (wanUpBody, wanInfoUp)), decode none, decode none, fun r => r⟩

/-- The clock of the examples: every request so far took a millisecond. -/
def demoNow (reqs : List Request) : Nat := reqs.length * 1000000

/-- A device that answers every `POST` with status 200 and no body and every
`GET` with status 200 and the body `[{}]`. -/
def bareAnswer (req : Request) : Response :=
  if req.Method = "POST" then ⟨200, [], none⟩ else ⟨200, bareBody, none⟩

/-- As `bareAnswer`, with the WAN info route answered by `wanUpBody`. -/
def upAnswer (req : Request) : Response :=
  if req.URL = "http://192.168.1.254/api/v1/wan/ip" then ⟨200, wanUpBody, none⟩
  else bareAnswer req

/-- As `upAnswer`, with the CPU route answered by `cpuBusyBody`. -/
def busyAnswer (req : Request) : Response :=
  if req.URL = "http://192.168.1.254/api/v1/device/cpu" then ⟨200, cpuBusyBody, none⟩
  else upAnswer req

/-- The device of `bareAnswer`. -/
def envBare : Env := ⟨fun _ _ => none, fun _ _ req => .ok (bareAnswer req), demoNow⟩

/-- The device of `upAnswer`: its WAN IP state is "Up". -/
def envUp : Env := ⟨fun _ _ => none, fun _ _ req => .ok (upAnswer req), demoNow⟩

/-- The device of `busyAnswer`. -/
def envBusy : Env := ⟨fun _ _ => none, fun _ _ req => .ok (busyAnswer req), demoNow⟩

/-- A device that answers the memory route with status 500. -/
def envMemDown : Env :=
  ⟨fun _ _ => none, fun _ _ req =>
    if req.URL = "http://192.168.1.254/api/v1/device/mem" then .ok ⟨500, ascii "oops", none⟩
    else .ok (bareAnswer req), demoNow⟩

/-- A device that answers the login with status 403. -/
def envForbidden : Env :=
  ⟨fun _ _ => none, fun _ _ req =>
    if req.URL = "http://192.168.1.254/api/v1/login" then .ok ⟨403, ascii "Forbidden", none⟩
    else .ok (bareAnswer req), demoNow⟩

/-- A device that answers every request with status 418 and a body that is a
well-formed one-element JSON array. -/
def envTeapot : Env := ⟨fun _ _ => none, fun _ _ _ => .ok ⟨418, bareBody, none⟩, demoNow⟩

/-- A device that answers every request with status 200 and the body `[]`. -/
def envEmptyArray : Env := ⟨fun _ _ => none, fun _ _ _ => .ok ⟨200, ascii "[]", none⟩, demoNow⟩

/-- The decoder of the CPU payload in `demoLib`. -/
def decodeCPU (body : Bytes) : Except String (List DeviceCPU) :=
  decode (some (cpuBusyBody, cpuBusy)) body

/-- No instance of `committedBug` starts anywhere in `s`. -/
def Clean : Bytes → Prop
  | [] => True
  | b :: s => committedBug.isPrefixOf (b :: s) = false ∧ Clean s

/-! ## JSON integers, for stating what the decoder accepts -/

/-- The decimal digits of `m`, most significant first, as ASCII bytes. -/
def decimal (m : Nat) : Bytes :=
  if m = 0 then [48] else (Nat.digits 10 m).reverse.map (fun d => d + 48)

/-- The text of the JSON integer `n`: a minus sign for a negative number, then
the decimal digits without leading zeros. -/
def jsonInt (n : Int) : Bytes := if n < 0 then 45 :: decimal n.natAbs else decimal n.natAbs

/-- The JSON string with content `b`, for a content that needs no escaping. -/
def quoted (b : Bytes) : Bytes := 34 :: b ++ [34]

/-- Every byte of `ds` is an ASCII decimal digit. -/
def IsDigits (ds : Bytes) : Prop := ∀ c ∈ ds, 48 ≤ c ∧ c ≤ 57

/-- The number a string of decimal digits denotes, continuing from `acc`. -/
def digitsValue (acc : Nat) (ds : Bytes) : Nat := ds.foldl (fun a c => a * 10 + (c - 48)) acc

/-- The runes `rs` start like a number: an optional sign, then a decimal digit. -/
def startsLikeNumber (rs : List Nat) : Bool :=
  match rs with
  | [] => false
  | r :: rest =>
    if r ∈ sign then
      match rest with
      | [] => false
      | r2 :: _ => decide (r2 ∈ decimalDigits)
    else decide (r ∈ decimalDigits)

/-! ## Time limits of a request

`Refresh` makes one context that expires `refreshTimeout` after its start
(exporter.go line 100) and hands it to `Login`, to every fetch and to the
deferred `Logout`, which put it on their requests; `NewClient` sets `Timeout` on
the `http.Client` that sends every request (client.go line 48). What
`Client.Do` makes of the two is library code: it is followed here through
net/http (client.go: `Client.deadline`, `setRequestCancel`, `Client.do`), with
the body of a response taken to arrive together with its header. -/

/-- A device with a clock: the reading of the clock given the requests made so
far, how long the device takes to answer a request, and what it answers. -/
structure Router where
  Now : List Request → Nat
  Need : List Request → Request → Nat
  Answer : List Request → Request → Response

/-- Go `(*Client).deadline()`, called at time `now`: `now + Timeout` when
`Timeout` is positive, and none (the zero time) otherwise. -/
def HTTPClient.deadline (hc : HTTPClient) (now : Nat) : Option Nat :=
  if hc.Timeout > 0 then some (now + hc.Timeout) else none

/-- The function `timeBeforeContextDeadline(t, ctx)` of net/http: `t` is before
the deadline of `ctx`, or `ctx` has none. -/
def timeBeforeContextDeadline (t : Nat) (ctx : Context) : Bool :=
  match ctx.deadline with
  | none => true
  | some d => decide (t < d)

/-- The function `urlErrorOp(method)` of net/http: the method with its first
letter kept and the rest in lower case. -/
def urlErrorOp (method : String) : String :=
  match method.toList with
  | [] => "Get"
  | first :: rest => String.mk (first :: rest.map Char.toLower)

/-- The text of the `*url.Error` that `Client.Do` returns, `Op "URL": Err`, for
a URL that `%q` prints as it is between the quotes. -/
def urlError (method url err : String) : String :=
  urlErrorOp method ++ " \"" ++ url ++ "\": " ++ err

/-- One exchange with the device under a deadline: the answer when it comes
before the deadline (or there is none), and otherwise the error with the text
`err`. -/
def roundTrip (router : Router) (reqs : List Request) (req : Request) (deadline : Option Nat)
    (err : String) : Except String Response :=
  match deadline with
  | none => .ok (router.Answer reqs req)
  | some d =>
    if router.Now reqs + router.Need reqs req < d then .ok (router.Answer reqs req)
    else .error (urlError req.Method req.URL err)

/-- Go `(*Client).Do(req)` against the device `router`: the client's deadline is
put on the request when the client has one and the request's context does not
expire sooner (`setRequestCancel`), and an exchange cut off by it is reported
as a client timeout; otherwise the context of the request alone limits the
exchange. -/
def HTTPClient.Do (hc : HTTPClient) (router : Router) (reqs : List Request) (req : Request) :
    Except String Response :=
  match hc.deadline (router.Now reqs) with
  | none => roundTrip router reqs req req.ctx.deadline "context deadline exceeded"
  | some deadline =>
    if timeBeforeContextDeadline deadline req.ctx then
      roundTrip router reqs req (some deadline)
        "context deadline exceeded (Client.Timeout exceeded while awaiting headers)"
    else roundTrip router reqs req req.ctx.deadline "context deadline exceeded"

/-- The environment of a process whose requests go to the device `router`. -/
def timedEnv (router : Router) : Env :=
  ⟨fun _ _ => none, fun hc reqs req => hc.Do router reqs req, router.Now⟩

/-- The deadline of a cycle that starts at time `start` under the context
`parent`: `refreshTimeout` after the start, or the deadline of `parent` when
that is sooner. -/
def cycleDeadline (parent : Context) (start : Nat) : Nat :=
  match parent.deadline with
  | none => start + refreshTimeout
  | some d => min d (start + refreshTimeout)

/-- The environment in which a request made at time `now` is answered exactly
when the device needs less than `min timeout (deadline - now)` for it, and
otherwise fails: with the client timeout when `timeout` is less than the time
left to the deadline, and as the expiry of the context when it is not. It does
not look at the client or at the context of the request. -/
def limitedEnv (router : Router) (timeout deadline : Nat) : Env :=
  ⟨fun _ _ => none, fun _ reqs req =>
    if router.Need reqs req < min timeout (deadline - router.Now reqs) then
      .ok (router.Answer reqs req)
    else if timeout < deadline - router.Now reqs then
      .error (urlError req.Method req.URL
        "context deadline exceeded (Client.Timeout exceeded while awaiting headers)")
    else .error (urlError req.Method req.URL "context deadline exceeded"),
   router.Now⟩

/-- The `GET` requests among `reqs`. -/
def gets (reqs : List Request) : List Request := reqs.filter (fun req => req.Method = "GET")

/-- The device of `upAnswer` on a day on which it takes 15 seconds to answer
the login and answers every other request at once. The clock starts at zero,
and reads 10 seconds once the login has been made: that is when a client with
the timeout of `NewClient` gives up on it. -/
def slowLogin : Router :=
  ⟨fun reqs => if reqs = [] then 0 else 10 * Second,
   fun _ req => if req.URL = "http://192.168.1.254/api/v1/login" then 15 * Second else 0,
   fun _ req => upAnswer req⟩

/-- The device of `upAnswer` on a day on which it takes 9 seconds to answer a
`GET` and answers a `POST` at once. The clock starts at zero and reads 9
seconds more after every `GET`, up to the 30 seconds at which the context of
the cycle expires and cuts the running request off. -/
def slowDevice : Router :=
  ⟨fun reqs => min ((gets reqs).length * (9 * Second)) (30 * Second),
   fun _ req => if req.Method = "GET" then 9 * Second else 0,
   fun _ req => upAnswer req⟩

/-! ## What a reader of the metrics can see

The handler that serves /metrics (main.go line 49, `promhttp.Handler()`) runs
in goroutines of its own while `Refresh` runs in the goroutine of the ticker
(main.go lines 40-47), and `Refresh` holds no lock across its writes. From the
Prometheus client library: a scrape collects the registered collectors one by
one, each read being atomic for its collector (a gauge is loaded atomically,
the children of a vector are listed under its lock), and so each collector is
read at a moment of its own. -/

/-- The collectors `New` registers: one for every field of `gauges`. -/
inductive Collector where
  | cpuTotal
  | cpuUser
  | cpuSystem
  | cpuIdle
  | cpuTemperature
  | memFree
  | memTotal
  | wanRxBytes
  | wanTxBytes
  | wanRxContractual
  | wanTxContractual
  | wanIPState
  | wanInternetState
  | wanInterfaceState
  | wanCgnatEnabled
  | wanInfo
  | lanRxBytes
  | lanTxBytes
  | wireless24RxBytes
  | wireless24TxBytes
  | wireless5RxBytes
  | wireless5TxBytes

/-- The gauges when the first `k` of the writes of a cycle are done. -/
def gauges.after (g : gauges) (writes : List (gauges → gauges)) (k : Nat) : gauges :=
  g.apply (writes.take k)

/-- What one scrape reads while a cycle goes through its `writes`, the gauges
being `g` before the first of them: collector `c` is read when `moment c` of
the writes are done. -/
def Gather (g : gauges) (writes : List (gauges → gauges)) (moment : Collector → Nat) : gauges :=
  { cpuTotal := (g.after writes (moment .cpuTotal)).cpuTotal
    cpuUser := (g.after writes (moment .cpuUser)).cpuUser
    cpuSystem := (g.after writes (moment .cpuSystem)).cpuSystem
    cpuIdle := (g.after writes (moment .cpuIdle)).cpuIdle
    cpuTemperature := (g.after writes (moment .cpuTemperature)).cpuTemperature
    memFree := (g.after writes (moment .memFree)).memFree
    memTotal := (g.after writes (moment .memTotal)).memTotal
    wanRxBytes := (g.after writes (moment .wanRxBytes)).wanRxBytes
    wanTxBytes := (g.after writes (moment .wanTxBytes)).wanTxBytes
    wanRxContractual := (g.after writes (moment .wanRxContractual)).wanRxContractual
    wanTxContractual := (g.after writes (moment .wanTxContractual)).wanTxContractual
    wanIPState := (g.after writes (moment .wanIPState)).wanIPState
    wanInternetState := (g.after writes (moment .wanInternetState)).wanInternetState
    wanInterfaceState := (g.after writes (moment .wanInterfaceState)).wanInterfaceState
    wanCgnatEnabled := (g.after writes (moment .wanCgnatEnabled)).wanCgnatEnabled
    wanInfo := (g.after writes (moment .wanInfo)).wanInfo
    lanRxBytes := (g.after writes (moment .lanRxBytes)).lanRxBytes
    lanTxBytes := (g.after writes (moment .lanTxBytes)).lanTxBytes
    wireless24RxBytes := (g.after writes (moment .wireless24RxBytes)).wireless24RxBytes
    wireless24TxBytes := (g.after writes (moment .wireless24TxBytes)).wireless24TxBytes
    wireless5RxBytes := (g.after writes (moment .wireless5RxBytes)).wireless5RxBytes
    wireless5TxBytes := (g.after writes (moment .wireless5TxBytes)).wireless5TxBytes }

/-- What a scrape reads of the gauges during a cycle as the claim C12, as
amended, tells it, from the values `old` before the cycle and the values `new`
after it: a gauge read when its write is done (the write has a fixed place
among the 24, counted from 1 in source order) holds its new value, and its old
value when read before. The info vector is taken as it was read, `info`. -/
def mixed (old new : gauges) (moment : Collector → Nat) (info : GaugeVec) : gauges :=
  { cpuTotal := if 1 ≤ moment .cpuTotal then new.cpuTotal else old.cpuTotal
    cpuUser := if 2 ≤ moment .cpuUser then new.cpuUser else old.cpuUser
    cpuSystem := if 3 ≤ moment .cpuSystem then new.cpuSystem else old.cpuSystem
    cpuIdle := if 4 ≤ moment .cpuIdle then new.cpuIdle else old.cpuIdle
    cpuTemperature := if 5 ≤ moment .cpuTemperature then new.cpuTemperature else old.cpuTemperature
    memFree := if 7 ≤ moment .memFree then new.memFree else old.memFree
    memTotal := if 6 ≤ moment .memTotal then new.memTotal else old.memTotal
    wanRxBytes := if 8 ≤ moment .wanRxBytes then new.wanRxBytes else old.wanRxBytes
    wanTxBytes := if 9 ≤ moment .wanTxBytes then new.wanTxBytes else old.wanTxBytes
    wanRxContractual :=
      if 10 ≤ moment .wanRxContractual then new.wanRxContractual else old.wanRxContractual
    wanTxContractual :=
      if 11 ≤ moment .wanTxContractual then new.wanTxContractual else old.wanTxContractual
    wanIPState := if 14 ≤ moment .wanIPState then new.wanIPState else old.wanIPState
    wanInternetState :=
      if 12 ≤ moment .wanInternetState then new.wanInternetState else old.wanInternetState
    wanInterfaceState :=
      if 13 ≤ moment .wanInterfaceState then new.wanInterfaceState else old.wanInterfaceState
    wanCgnatEnabled :=
      if 15 ≤ moment .wanCgnatEnabled then new.wanCgnatEnabled else old.wanCgnatEnabled
    wanInfo := info
    lanRxBytes := if 19 ≤ moment .lanRxBytes then new.lanRxBytes else old.lanRxBytes
    lanTxBytes := if 20 ≤ moment .lanTxBytes then new.lanTxBytes else old.lanTxBytes
    wireless24RxBytes :=
      if 21 ≤ moment .wireless24RxBytes then new.wireless24RxBytes else old.wireless24RxBytes
    wireless24TxBytes :=
      if 22 ≤ moment .wireless24TxBytes then new.wireless24TxBytes else old.wireless24TxBytes
    wireless5RxBytes :=
      if 23 ≤ moment .wireless5RxBytes then new.wireless5RxBytes else old.wireless5RxBytes
    wireless5TxBytes :=
      if 24 ≤ moment .wireless5TxBytes then new.wireless5TxBytes else old.wireless5TxBytes }

/-- The first cycle of a process that starts with the client `demoClient`
while the device is that of `envUp`. -/
def firstCycle : Run := (New demoClient).Refresh demoLib envUp Background []

/-- The exporter when the first cycle is over. -/
def afterFirst : Exporter := ⟨demoClient, firstCycle.g⟩

/-- The second cycle of that process; the device is now that of `envBusy`. -/
def secondCycle : Run := afterFirst.Refresh demoLib envBusy Background firstCycle.events

/-- The writes of the second cycle: those for the payloads its fetches return. -/
def secondWrites : List (gauges → gauges) :=
  Exporter.updates demoLib cpuBusy default wanInfoUp default default default default

/-- A scrape that reads the collector of the CPU total before the first write
of a cycle and every other collector after the last. -/
def lateButTotal : Collector → Nat
  | .cpuTotal => 0
  | _ => 24

/-! # Properties

## Events of the client methods -/

theorem calls_append (a b : List Event) : calls (a ++ b) = calls a ++ calls b := by
  induction a with
  | nil => rfl
  | cons ev a ih => cases ev <;> simp [calls, ih]

theorem returns_append (a b : List Event) : returns (a ++ b) = returns a ++ returns b := by
  induction a with
  | nil => rfl
  | cons ev a ih => cases ev <;> simp [returns, ih]

theorem sent_append (a b : List Event) : sent (a ++ b) = sent a ++ sent b := by
  induction a with
  | nil => rfl
  | cons ev a ih => cases ev <;> simp [sent, ih]

theorem SendsOnly.calls {req : Request} {evs : List Event} (h : SendsOnly req evs) :
    calls evs = [] := by
  rcases h with h | h <;> subst h <;> rfl

theorem SendsOnly.returns {req : Request} {evs : List Event} (h : SendsOnly req evs) :
    returns evs = [] := by
  rcases h with h | h <;> subst h <;> rfl

theorem SendsOnly.sent {req : Request} {evs : List Event} (h : SendsOnly req evs) :
    (sent evs).Sublist [req] := by
  rcases h with h | h <;> subst h <;> simp [BBox.sent]

theorem Login_sendsOnly (env : Env) (c : Client) (ctx : Context) (hist : List Event) :
    SendsOnly (c.request ctx .Login) (c.Login env ctx hist).2 := by
  unfold Client.Login SendsOnly Client.request
  split
  · simp
  · split
    · simp
    · split <;> simp

theorem Logout_sendsOnly (env : Env) (c : Client) (ctx : Context) (hist : List Event) :
    SendsOnly (c.request ctx .Logout) (c.Logout env ctx hist).2 := by
  unfold Client.Logout SendsOnly Client.request
  split
  · simp
  · split <;> simp

theorem get_sendsOnly (env : Env) (c : Client) (ctx : Context) (rt : String) (hist : List Event) :
    SendsOnly (c.getRequest ctx rt) (c.get env ctx rt hist).2 := by
  unfold Client.get SendsOnly
  split
  · simp
  · split
    · simp
    · split
      · simp
      · split <;> simp

theorem fetchSingle_events {T : Type} (U : Bytes → Except String (List T)) (env : Env) (c : Client)
    (ctx : Context) (rt : String) (hist : List Event) :
    (fetchSingle U env ctx c rt hist).2 = (c.get env ctx rt hist).2 := by
  unfold fetchSingle
  split
  · next h => simp [h]
  · next h =>
    simp only [h]
    split
    · rfl
    · split <;> rfl

theorem fetchSingle_sendsOnly {T : Type} (U : Bytes → Except String (List T)) (env : Env)
    (c : Client) (ctx : Context) (rt : String) (hist : List Event) :
    SendsOnly (c.getRequest ctx rt) (fetchSingle U env ctx c rt hist).2 := by
  rw [fetchSingle_events]; exact get_sendsOnly env c ctx rt hist

theorem FetchCPU_sendsOnly (lib : Lib) (env : Env) (c : Client) (ctx : Context)
    (h : List Event) :
    SendsOnly (c.request ctx .FetchCPU) (c.FetchCPU lib env ctx h).2 :=
  fetchSingle_sendsOnly _ _ _ _ _ _

theorem FetchMem_sendsOnly (lib : Lib) (env : Env) (c : Client) (ctx : Context)
    (h : List Event) :
    SendsOnly (c.request ctx .FetchMem) (c.FetchMem lib env ctx h).2 :=
  fetchSingle_sendsOnly _ _ _ _ _ _

theorem FetchWanIPInfo_sendsOnly (lib : Lib) (env : Env) (c : Client) (ctx : Context)
    (h : List Event) :
    SendsOnly (c.request ctx .FetchWanIPInfo) (c.FetchWanIPInfo lib env ctx h).2 :=
  fetchSingle_sendsOnly _ _ _ _ _ _

theorem FetchWanIPStats_sendsOnly (lib : Lib) (env : Env) (c : Client) (ctx : Context)
    (h : List Event) :
    SendsOnly (c.request ctx .FetchWanIPStats) (c.FetchWanIPStats lib env ctx h).2 :=
  fetchSingle_sendsOnly _ _ _ _ _ _

theorem FetchLanStats_sendsOnly (lib : Lib) (env : Env) (c : Client) (ctx : Context)
    (h : List Event) :
    SendsOnly (c.request ctx .FetchLanStats) (c.FetchLanStats lib env ctx h).2 :=
  fetchSingle_sendsOnly _ _ _ _ _ _

theorem FetchWireless24Stats_sendsOnly (lib : Lib) (env : Env) (c : Client) (ctx : Context)
    (h : List Event) :
    SendsOnly (c.request ctx .FetchWireless24Stats) (c.FetchWireless24Stats lib env ctx h).2 :=
  fetchSingle_sendsOnly _ _ _ _ _ _

theorem FetchWireless5Stats_sendsOnly (lib : Lib) (env : Env) (c : Client) (ctx : Context)
    (h : List Event) :
    SendsOnly (c.request ctx .FetchWireless5Stats) (c.FetchWireless5Stats lib env ctx h).2 :=
  fetchSingle_sendsOnly _ _ _ _ _ _

theorem invoke_error {T : Type} {op : Op} {val : T → Value} {req : Request}
    {m : List Event → Except Error T × List Event} {hist : List Event} {err : Error}
    {t : List Event} (hm : ∀ h, SendsOnly req (m h).2)
    (h : invoke op val m hist = (.error err, t)) :
    (m (hist ++ [.call op])).1 = .error err ∧ calls t = [op] ∧
      returns t = [(op, .error err)] ∧ (sent t).Sublist [req] := by
  have h1 : (m (hist ++ [.call op])).1 = .error err := congrArg Prod.fst h
  have h2 : t = (invoke op val m hist).2 := (congrArg Prod.snd h).symm
  subst h2
  refine ⟨h1, ?_, ?_, ?_⟩
  · simp [invoke, calls_append, (hm _).calls, calls]
  · simp [invoke, returns_append, (hm _).returns, returns, h1]
  · simpa [invoke, sent_append, sent] using (hm _).sent

theorem invoke_ok {T : Type} {op : Op} {val : T → Value} {req : Request}
    {m : List Event → Except Error T × List Event} {hist : List Event} {v : T}
    {t : List Event} (hm : ∀ h, SendsOnly req (m h).2)
    (h : invoke op val m hist = (.ok v, t)) :
    (m (hist ++ [.call op])).1 = .ok v ∧ calls t = [op] ∧
      returns t = [(op, .ok (val v))] ∧ (sent t).Sublist [req] := by
  have h1 : (m (hist ++ [.call op])).1 = .ok v := congrArg Prod.fst h
  have h2 : t = (invoke op val m hist).2 := (congrArg Prod.snd h).symm
  subst h2
  refine ⟨h1, ?_, ?_, ?_⟩
  · simp [invoke, calls_append, (hm _).calls, calls]
  · simp [invoke, returns_append, (hm _).returns, returns, h1]
  · simpa [invoke, sent_append, sent] using (hm _).sent

/-- What a run of the fetch sequence looks like: either all seven fetches
return a value and the gauges hold the writes derived from them, or the fetch
at some position `k` is the first to fail, nothing after it is called and the
gauges are untouched. -/
theorem scrape_spec (lib : Lib) (env : Env) (e : Exporter) (ctx : Context)
    (hist : List Event) :
    (∃ cpu mem wanInfo wanStats lanStats w24 w5,
      (e.scrape lib env ctx hist).err = none ∧
      (e.scrape lib env ctx hist).g =
        e.g.apply (Exporter.updates lib cpu mem wanInfo wanStats lanStats w24 w5) ∧
      calls (e.scrape lib env ctx hist).events = fetchOps ∧
      returns (e.scrape lib env ctx hist).events =
        [(.FetchCPU, .ok (.cpu cpu)), (.FetchMem, .ok (.mem mem)),
         (.FetchWanIPInfo, .ok (.wanInfo wanInfo)), (.FetchWanIPStats, .ok (.wanStats wanStats)),
         (.FetchLanStats, .ok (.lanStats lanStats)), (.FetchWireless24Stats, .ok (.wireless w24)),
         (.FetchWireless5Stats, .ok (.wireless w5))] ∧
      (sent (e.scrape lib env ctx hist).events).Sublist (fetchOps.map (e.client.request ctx))) ∨
    (∃ k op cause oks, k < 7 ∧ fetchOps[k]? = some op ∧
      (e.scrape lib env ctx hist).err = some (.wrap (fetchLabel op) cause) ∧
      (e.scrape lib env ctx hist).g = e.g ∧
      calls (e.scrape lib env ctx hist).events = fetchOps.take (k + 1) ∧
      returns (e.scrape lib env ctx hist).events = oks ++ [(op, .error cause)] ∧
      oks.map Prod.fst = fetchOps.take k ∧ (∀ p ∈ oks, ∃ v, p.2 = .ok v) ∧
      (sent (e.scrape lib env ctx hist).events).Sublist
        ((fetchOps.take (k + 1)).map (e.client.request ctx))) := by
  unfold Exporter.scrape
  split
  · next err t1 h1 =>
    obtain ⟨-, c1, r1, s1⟩ := invoke_error (FetchCPU_sendsOnly lib env e.client ctx) h1
    refine Or.inr ⟨0, .FetchCPU, err, [], ?_⟩
    refine ⟨by decide, rfl, rfl, rfl, ?_, ?_, rfl, ?_, ?_⟩
    · simp [fetchOps, c1, r1, calls_append]
    · simp [c1, r1, returns_append]
    · simp
    · simp only [sent_append]
      exact s1
  · next cpu t1 h1 =>
    obtain ⟨-, c1, r1, s1⟩ := invoke_ok (FetchCPU_sendsOnly lib env e.client ctx) h1
    split
    · next err t2 h2 =>
      obtain ⟨-, c2, r2, s2⟩ := invoke_error (FetchMem_sendsOnly lib env e.client ctx) h2
      refine Or.inr ⟨1, .FetchMem, err, [(.FetchCPU, .ok (.cpu cpu))], ?_⟩
      refine ⟨by decide, rfl, rfl, rfl, ?_, ?_, rfl, ?_, ?_⟩
      · simp [fetchOps, c1, r1, c2, r2, calls_append]
      · simp [c1, r1, c2, r2, returns_append]
      · simp
      · simp only [sent_append]
        exact s1.append s2
    · next mem t2 h2 =>
      obtain ⟨-, c2, r2, s2⟩ := invoke_ok (FetchMem_sendsOnly lib env e.client ctx) h2
      split
      · next err t3 h3 =>
        obtain ⟨-, c3, r3, s3⟩ := invoke_error (FetchWanIPInfo_sendsOnly lib env e.client ctx) h3
        refine Or.inr ⟨2, .FetchWanIPInfo, err, [(.FetchCPU, .ok (.cpu cpu)), (.FetchMem, .ok (.mem mem))], ?_⟩
        refine ⟨by decide, rfl, rfl, rfl, ?_, ?_, rfl, ?_, ?_⟩
        · simp [fetchOps, c1, r1, c2, r2, c3, r3, calls_append]
        · simp [c1, r1, c2, r2, c3, r3, returns_append]
        · simp
        · simp only [sent_append]
          exact (s1.append s2).append s3
      · next wanInfo t3 h3 =>
        obtain ⟨-, c3, r3, s3⟩ := invoke_ok (FetchWanIPInfo_sendsOnly lib env e.client ctx) h3
        split
        · next err t4 h4 =>
          obtain ⟨-, c4, r4, s4⟩ := invoke_error (FetchWanIPStats_sendsOnly lib env e.client ctx) h4
          refine Or.inr ⟨3, .FetchWanIPStats, err, [(.FetchCPU, .ok (.cpu cpu)), (.FetchMem, .ok (.mem mem)), (.FetchWanIPInfo, .ok (.wanInfo wanInfo))], ?_⟩
          refine ⟨by decide, rfl, rfl, rfl, ?_, ?_, rfl, ?_, ?_⟩
          · simp [fetchOps, c1, r1, c2, r2, c3, r3, c4, r4, calls_append]
          · simp [c1, r1, c2, r2, c3, r3, c4, r4, returns_append]
          · simp
          · simp only [sent_append]
            exact ((s1.append s2).append s3).append s4
        · next wanStats t4 h4 =>
          obtain ⟨-, c4, r4, s4⟩ := invoke_ok (FetchWanIPStats_sendsOnly lib env e.client ctx) h4
          split
          · next err t5 h5 =>
            obtain ⟨-, c5, r5, s5⟩ := invoke_error (FetchLanStats_sendsOnly lib env e.client ctx) h5
            refine Or.inr ⟨4, .FetchLanStats, err, [(.FetchCPU, .ok (.cpu cpu)), (.FetchMem, .ok (.mem mem)), (.FetchWanIPInfo, .ok (.wanInfo wanInfo)), (.FetchWanIPStats, .ok (.wanStats wanStats))], ?_⟩
            refine ⟨by decide, rfl, rfl, rfl, ?_, ?_, rfl, ?_, ?_⟩
            · simp [fetchOps, c1, r1, c2, r2, c3, r3, c4, r4, c5, r5, calls_append]
            · simp [c1, r1, c2, r2, c3, r3, c4, r4, c5, r5, returns_append]
            · simp
            · simp only [sent_append]
              exact (((s1.append s2).append s3).append s4).append s5
          · next lanStats t5 h5 =>
            obtain ⟨-, c5, r5, s5⟩ := invoke_ok (FetchLanStats_sendsOnly lib env e.client ctx) h5
            split
            · next err t6 h6 =>
              obtain ⟨-, c6, r6, s6⟩ := invoke_error (FetchWireless24Stats_sendsOnly lib env e.client ctx) h6
              refine Or.inr ⟨5, .FetchWireless24Stats, err, [(.FetchCPU, .ok (.cpu cpu)), (.FetchMem, .ok (.mem mem)), (.FetchWanIPInfo, .ok (.wanInfo wanInfo)), (.FetchWanIPStats, .ok (.wanStats wanStats)), (.FetchLanStats, .ok (.lanStats lanStats))], ?_⟩
              refine ⟨by decide, rfl, rfl, rfl, ?_, ?_, rfl, ?_, ?_⟩
              · simp [fetchOps, c1, r1, c2, r2, c3, r3, c4, r4, c5, r5, c6, r6, calls_append]
              · simp [c1, r1, c2, r2, c3, r3, c4, r4, c5, r5, c6, r6, returns_append]
              · simp
              · simp only [sent_append]
                exact ((((s1.append s2).append s3).append s4).append s5).append s6
            · next w24 t6 h6 =>
              obtain ⟨-, c6, r6, s6⟩ := invoke_ok (FetchWireless24Stats_sendsOnly lib env e.client ctx) h6
              split
              · next err t7 h7 =>
                obtain ⟨-, c7, r7, s7⟩ := invoke_error (FetchWireless5Stats_sendsOnly lib env e.client ctx) h7
                refine Or.inr ⟨6, .FetchWireless5Stats, err, [(.FetchCPU, .ok (.cpu cpu)), (.FetchMem, .ok (.mem mem)), (.FetchWanIPInfo, .ok (.wanInfo wanInfo)), (.FetchWanIPStats, .ok (.wanStats wanStats)), (.FetchLanStats, .ok (.lanStats lanStats)), (.FetchWireless24Stats, .ok (.wireless w24))], ?_⟩
                refine ⟨by decide, rfl, rfl, rfl, ?_, ?_, rfl, ?_, ?_⟩
                · simp [fetchOps, c1, r1, c2, r2, c3, r3, c4, r4, c5, r5, c6, r6, c7, r7, calls_append]
                · simp [c1, r1, c2, r2, c3, r3, c4, r4, c5, r5, c6, r6, c7, r7, returns_append]
                · simp
                · simp only [sent_append]
                  exact (((((s1.append s2).append s3).append s4).append s5).append s6).append s7
              · next w5 t7 h7 =>
                obtain ⟨-, c7, r7, s7⟩ := invoke_ok (FetchWireless5Stats_sendsOnly lib env e.client ctx) h7
                refine Or.inl ⟨cpu, mem, wanInfo, wanStats, lanStats, w24, w5, rfl, rfl, ?_, ?_, ?_⟩
                · simp [fetchOps, c1, r1, c2, r2, c3, r3, c4, r4, c5, r5, c6, r6, c7, r7, calls_append]
                · simp [c1, r1, c2, r2, c3, r3, c4, r4, c5, r5, c6, r6, c7, r7, returns_append]
                · simp only [sent_append]
                  exact (((((s1.append s2).append s3).append s4).append s5).append s6).append s7


theorem invoke_sent {T : Type} (op : Op) (val : T → Value)
    (m : List Event → Except Error T × List Event) (hist : List Event) :
    sent (invoke op val m hist).2 = sent (m (hist ++ [.call op])).2 := by
  simp [invoke, sent_append, sent]

theorem Logout_sent (env : Env) (c : Client) (ctx : Context) (hist : List Event)
    (hreq : env.NewRequest "POST" (c.url logoutRoute) = none) :
    sent (c.Logout env ctx hist).2 = [c.logoutRequest ctx] := by
  unfold Client.Logout
  rw [hreq]
  dsimp only
  split <;> rfl

/-- The two shapes of a run of `Refresh`: the login fails and nothing else
happens, or the login succeeds, the fetch sequence runs and the logout is
called after it, all under the context of the cycle. -/
theorem Refresh_spec (lib : Lib) (env : Env) (e : Exporter) (ctx : Context)
    (hist : List Event) :
    (∃ err t0, (e.Refresh lib env ctx hist) = ⟨some (.wrap "login" err), e.g, t0⟩ ∧
      calls t0 = [.Login] ∧ returns t0 = [(.Login, .error err)] ∧
      (sent t0).Sublist [e.client.request (cycleContext env ctx hist) .Login]) ∨
    (∃ t0 tl res, calls t0 = [.Login] ∧ returns t0 = [(.Login, .ok .unit)] ∧
      (sent t0).Sublist [e.client.request (cycleContext env ctx hist) .Login] ∧
      (e.Refresh lib env ctx hist).err =
        (e.scrape lib env (cycleContext env ctx hist) (hist ++ t0)).err ∧
      (e.Refresh lib env ctx hist).g =
        (e.scrape lib env (cycleContext env ctx hist) (hist ++ t0)).g ∧
      (e.Refresh lib env ctx hist).events =
        t0 ++ (e.scrape lib env (cycleContext env ctx hist) (hist ++ t0)).events ++ tl ∧
      calls tl = [.Logout] ∧ returns tl = [(.Logout, res)] ∧
      (sent tl).Sublist [e.client.request (cycleContext env ctx hist) .Logout] ∧
      (env.NewRequest "POST" (e.client.url logoutRoute) = none →
        sent tl = [e.client.logoutRequest (cycleContext env ctx hist)])) := by
  unfold Exporter.Refresh
  dsimp only
  split
  · next err t0 h0 =>
    obtain ⟨-, c0, r0, s0⟩ := invoke_error (Login_sendsOnly env e.client _) h0
    exact Or.inl ⟨err, t0, rfl, c0, r0, s0⟩
  · next u t0 h0 =>
    obtain ⟨-, c0, r0, s0⟩ := invoke_ok (Login_sendsOnly env e.client _) h0
    rcases hout : invoke .Logout (fun _ => Value.unit)
      (e.client.Logout env (cycleContext env ctx hist))
      (hist ++ t0 ++ (e.scrape lib env (cycleContext env ctx hist) (hist ++ t0)).events)
      with ⟨res, tl⟩
    have hsent : env.NewRequest "POST" (e.client.url logoutRoute) = none →
        sent tl = [e.client.logoutRequest (cycleContext env ctx hist)] := by
      intro hreq
      have h2 := invoke_sent .Logout (fun _ => Value.unit)
        (e.client.Logout env (cycleContext env ctx hist))
        (hist ++ t0 ++ (e.scrape lib env (cycleContext env ctx hist) (hist ++ t0)).events)
      rw [hout, Logout_sent env e.client _ _ hreq] at h2
      exact h2
    cases res with
    | error err =>
      obtain ⟨-, cl, rl, sl⟩ := invoke_error (Logout_sendsOnly env e.client _) hout
      refine Or.inr ⟨t0, tl ++ [.log "logout failed" err], .error err, c0, r0, s0, rfl, rfl,
        ?_, ?_, ?_, ?_, ?_⟩
      · simp only [hout]
        simp only [List.append_assoc]
      · simp [calls_append, cl, calls]
      · simp [returns_append, rl, returns]
      · simpa [sent_append, sent] using sl
      · intro hreq
        simpa [sent_append, sent] using hsent hreq
    | ok v =>
      obtain ⟨-, cl, rl, sl⟩ := invoke_ok (Logout_sendsOnly env e.client _) hout
      refine Or.inr ⟨t0, tl, .ok .unit, c0, r0, s0, rfl, rfl, ?_, cl, rl, sl, hsent⟩
      simp only [hout, List.append_nil]


theorem fetchOps_index {k : Nat} {op : Op} (hk : k < 7) (h : fetchOps[k]? = some op) :
    fetchOps.indexOf op = k ∧ op ∈ fetchOps ∧ op ≠ .Login ∧ op ≠ .Logout := by
  interval_cases k <;> simp [fetchOps] at h <;> subst h <;> decide

theorem take_fetchOps_prefix (k : Nat) : fetchOps.take k <+: fetchOps :=
  List.take_prefix k fetchOps

theorem logout_not_mem_take (k : Nat) : Op.Logout ∉ fetchOps.take k := by
  intro h
  have := List.mem_of_mem_take h
  simp [fetchOps] at this

/-! ## Environments that agree on the requests of a cycle -/

theorem url_inj (c : Client) {r1 r2 : String} (h1 : HasPrefix r1 "/" = true)
    (h2 : HasPrefix r2 "/" = true) (h : c.url r1 = c.url r2) : r1 = r2 := by
  unfold Client.url at h
  rw [if_pos h1, if_pos h2] at h
  have hd := congrArg String.data h
  simp only [String.data_append] at hd
  exact String.ext (List.append_cancel_left hd)

theorem url_ne_logout (c : Client) (op : Op) (hop : op ≠ .Logout) :
    c.url (route op) ≠ c.url logoutRoute := by
  intro h
  have hr : route op = logoutRoute :=
    url_inj c (by cases op <;> decide) (by decide) h
  cases op <;> first | exact hop rfl | (revert hr; decide)

theorem request_url (c : Client) (ctx : Context) (op : Op) :
    (c.request ctx op).URL = c.url (route op) := by
  cases op <;> rfl

theorem request_ne_logout (c : Client) (ctx : Context) (op : Op) (hop : op ≠ .Logout) :
    c.request ctx op ≠ c.logoutRequest ctx := by
  intro h
  have hu := congrArg Request.URL h
  rw [request_url] at hu
  exact url_ne_logout c op hop hu

theorem Login_congr {c : Client} {ctx : Context} {ops : List Op} {env1 env2 : Env}
    (h : Agree c ctx ops env1 env2) (hop : Op.Login ∈ ops) :
    c.Login env2 ctx = c.Login env1 ctx := by
  funext hist
  have h1 : env2.NewRequest "POST" (c.url loginRoute) = env1.NewRequest "POST" (c.url loginRoute) :=
    h.1 "POST" .Login hop
  have h2 : ∀ reqs, env2.Do c.httpClient reqs (c.loginRequest ctx) =
      env1.Do c.httpClient reqs (c.loginRequest ctx) := fun reqs => h.2.1 reqs .Login hop
  unfold Client.Login
  rw [h1, h2]

theorem Logout_congr {c : Client} {ctx : Context} {ops : List Op} {env1 env2 : Env}
    (h : Agree c ctx ops env1 env2) (hop : Op.Logout ∈ ops) :
    c.Logout env2 ctx = c.Logout env1 ctx := by
  funext hist
  have h1 : env2.NewRequest "POST" (c.url logoutRoute) =
      env1.NewRequest "POST" (c.url logoutRoute) := h.1 "POST" .Logout hop
  have h2 : ∀ reqs, env2.Do c.httpClient reqs (c.logoutRequest ctx) =
      env1.Do c.httpClient reqs (c.logoutRequest ctx) := fun reqs => h.2.1 reqs .Logout hop
  unfold Client.Logout
  rw [h1, h2]

theorem get_congr {c : Client} {ctx : Context} {ops : List Op} {env1 env2 : Env}
    (h : Agree c ctx ops env1 env2) (op : Op) (hop : op ∈ ops) (hf : op ∈ fetchOps) :
    c.get env2 ctx (route op) = c.get env1 ctx (route op) := by
  funext hist
  have h1 : env2.NewRequest "GET" (c.url (route op)) = env1.NewRequest "GET" (c.url (route op)) :=
    h.1 "GET" op hop
  have hr : c.request ctx op = c.getRequest ctx (route op) := by
    simp only [fetchOps, List.mem_cons, List.mem_singleton, List.not_mem_nil, or_false] at hf
    rcases hf with rfl | rfl | rfl | rfl | rfl | rfl | rfl <;> rfl
  have h2 : ∀ reqs, env2.Do c.httpClient reqs (c.getRequest ctx (route op)) =
      env1.Do c.httpClient reqs (c.getRequest ctx (route op)) := by
    intro reqs
    rw [← hr]
    exact h.2.1 reqs op hop
  unfold Client.get
  rw [h1, h2]

theorem fetchSingle_congr {T : Type} (U : Bytes → Except String (List T)) {c : Client}
    {ctx : Context} {ops : List Op} {env1 env2 : Env} (h : Agree c ctx ops env1 env2) (op : Op)
    (hop : op ∈ ops) (hf : op ∈ fetchOps) :
    fetchSingle U env2 ctx c (route op) = fetchSingle U env1 ctx c (route op) := by
  funext hist
  unfold fetchSingle
  rw [get_congr h op hop hf]

theorem scrape_congr (lib : Lib) {e : Exporter} {ctx : Context} {ops : List Op} {env1 env2 : Env}
    (h : Agree e.client ctx ops env1 env2) (hops : ∀ op ∈ fetchOps, op ∈ ops) :
    e.scrape lib env2 ctx = e.scrape lib env1 ctx := by
  funext hist
  have h1 : e.client.FetchCPU lib env2 ctx = e.client.FetchCPU lib env1 ctx :=
    fetchSingle_congr _ h .FetchCPU (hops _ (by decide)) (by decide)
  have h2 : e.client.FetchMem lib env2 ctx = e.client.FetchMem lib env1 ctx :=
    fetchSingle_congr _ h .FetchMem (hops _ (by decide)) (by decide)
  have h3 : e.client.FetchWanIPInfo lib env2 ctx = e.client.FetchWanIPInfo lib env1 ctx :=
    fetchSingle_congr _ h .FetchWanIPInfo (hops _ (by decide)) (by decide)
  have h4 : e.client.FetchWanIPStats lib env2 ctx = e.client.FetchWanIPStats lib env1 ctx :=
    fetchSingle_congr _ h .FetchWanIPStats (hops _ (by decide)) (by decide)
  have h5 : e.client.FetchLanStats lib env2 ctx = e.client.FetchLanStats lib env1 ctx :=
    fetchSingle_congr _ h .FetchLanStats (hops _ (by decide)) (by decide)
  have h6 : e.client.FetchWireless24Stats lib env2 ctx =
      e.client.FetchWireless24Stats lib env1 ctx :=
    fetchSingle_congr _ h .FetchWireless24Stats (hops _ (by decide)) (by decide)
  have h7 : e.client.FetchWireless5Stats lib env2 ctx =
      e.client.FetchWireless5Stats lib env1 ctx :=
    fetchSingle_congr _ h .FetchWireless5Stats (hops _ (by decide)) (by decide)
  unfold Exporter.scrape
  rw [h1, h2, h3, h4, h5, h6, h7]

theorem cycleContext_congr {env1 env2 : Env} (h : env2.Now = env1.Now) (ctx : Context)
    (hist : List Event) : cycleContext env2 ctx hist = cycleContext env1 ctx hist := by
  unfold cycleContext
  rw [h]

/-- Environments that agree on the login and the fetches of a cycle give it
the same error and the same gauges. -/
theorem Refresh_congr (lib : Lib) {e : Exporter} {env1 env2 : Env} (ctx : Context)
    (hist : List Event)
    (h : Agree e.client (cycleContext env1 ctx hist) (Op.Login :: fetchOps) env1 env2) :
    (e.Refresh lib env2 ctx hist).err = (e.Refresh lib env1 ctx hist).err ∧
      (e.Refresh lib env2 ctx hist).g = (e.Refresh lib env1 ctx hist).g := by
  unfold Exporter.Refresh
  dsimp only
  rw [cycleContext_congr h.2.2, Login_congr h (by decide),
    scrape_congr lib h (fun op hop => List.mem_cons_of_mem _ hop)]
  rcases hl : invoke Op.Login (fun _ => Value.unit)
    (e.client.Login env1 (cycleContext env1 ctx hist)) hist with ⟨r, t0⟩
  cases r <;> simp

/-- Environments that agree on every request of a cycle give the same run. -/
theorem Refresh_congr_all (lib : Lib) {e : Exporter} {env1 env2 : Env} (ctx : Context)
    (hist : List Event)
    (h : Agree e.client (cycleContext env1 ctx hist) (Op.Login :: Op.Logout :: fetchOps)
      env1 env2) :
    e.Refresh lib env2 ctx hist = e.Refresh lib env1 ctx hist := by
  unfold Exporter.Refresh
  dsimp only
  rw [cycleContext_congr h.2.2, Login_congr h (by decide), Logout_congr h (by decide),
    scrape_congr lib h (fun op hop => List.mem_cons_of_mem _ (List.mem_cons_of_mem _ hop))]

theorem Agree_of_SameButLogout {c : Client} {env1 env2 : Env} (h : SameButLogout c env1 env2)
    (ctx : Context) : Agree c ctx (Op.Login :: fetchOps) env1 env2 := by
  have hne : ∀ op ∈ Op.Login :: fetchOps, op ≠ Op.Logout := by decide
  refine ⟨fun m op hop => h.1 m _ (url_ne_logout c op (hne op hop)),
    fun reqs op hop => h.2.1 _ reqs _ ?_, h.2.2⟩
  rw [request_url]
  exact url_ne_logout c op (hne op hop)

/-! ## The refresh cycle: C1 to C4 -/

/-- C1 (cycle atomicity): in every run of `Refresh` in which the login returns
without error and one of the seven fetches returns an error, every gauge and
the WAN info vector hold after the run exactly what they held before it. -/
theorem Refresh_failed_fetch_keeps_gauges (lib : Lib) (env : Env) (e : Exporter)
    (ctx : Context) (hist : List Event)
    (hlogin : (Op.Login, Except.ok Value.unit) ∈ returns (e.Refresh lib env ctx hist).events)
    (hfetch : ∃ op err, op ∈ fetchOps ∧
      (op, Except.error err) ∈ returns (e.Refresh lib env ctx hist).events) :
    (e.Refresh lib env ctx hist).g = e.g := by
  rcases Refresh_spec lib env e ctx hist with ⟨err, t0, hrun, -, r0, -⟩ |
    ⟨t0, tl, res, -, r0, -, -, hg, hev, -, rl, -⟩
  · rw [hrun] at hlogin
    simp [r0] at hlogin
  · rw [hg]
    rcases scrape_spec lib env e (cycleContext env ctx hist) (hist ++ t0) with
      ⟨cpu, mem, wanInfo, wanStats, lanStats, w24, w5, -, -, -, hr, -⟩ |
      ⟨k, op', cause, oks, -, -, -, hg', -⟩
    · obtain ⟨op, err, hop, hmem⟩ := hfetch
      rw [hev] at hmem
      simp only [returns_append, r0, hr, rl] at hmem
      simp at hmem
      obtain ⟨rfl, -⟩ := hmem
      simp [fetchOps] at hop
    · exact hg'

/-- C2 (session cleanup): in every run of `Refresh` in which the login returns
without error, the calls made are `Login`, then the fetches attempted (a prefix
of the fetch order), then `Logout`: `Logout` is called exactly once and after
every fetch, whatever the fetches and the logout itself return, also when they
fail because the context of the cycle has expired. The call is an attempt:
when the logout request can be built, `Logout` hands it to `httpClient.Do`, it
is the last request of the run handed to `Do`, and it is handed to `Do` once
(what `Do` makes of it, under an expired context too, is not up to `Refresh`).
The error `Refresh` returns and the gauges it leaves do not depend on how the
logout request is answered (an error of `Logout` is only logged). -/
theorem Refresh_logout_once (lib : Lib) (env : Env) (e : Exporter) (ctx : Context)
    (hist : List Event)
    (hlogin : (Op.Login, Except.ok Value.unit) ∈ returns (e.Refresh lib env ctx hist).events) :
    (∃ fs, fs <+: fetchOps ∧
      calls (e.Refresh lib env ctx hist).events = Op.Login :: fs ++ [Op.Logout]) ∧
    (calls (e.Refresh lib env ctx hist).events).count Op.Logout = 1 ∧
    (calls (e.Refresh lib env ctx hist).events).getLast? = some Op.Logout ∧
    (env.NewRequest "POST" (e.client.url logoutRoute) = none →
      (sent (e.Refresh lib env ctx hist).events).getLast? =
        some (e.client.logoutRequest (cycleContext env ctx hist)) ∧
      (sent (e.Refresh lib env ctx hist).events).count
        (e.client.logoutRequest (cycleContext env ctx hist)) = 1) ∧
    (∀ env2, SameButLogout e.client env env2 →
      (e.Refresh lib env2 ctx hist).err = (e.Refresh lib env ctx hist).err ∧
      (e.Refresh lib env2 ctx hist).g = (e.Refresh lib env ctx hist).g) := by
  have hshape : ∃ k s, calls (e.Refresh lib env ctx hist).events =
        Op.Login :: fetchOps.take k ++ [Op.Logout] ∧
      s.Sublist (e.client.request (cycleContext env ctx hist) Op.Login ::
        (fetchOps.take k).map (e.client.request (cycleContext env ctx hist))) ∧
      (env.NewRequest "POST" (e.client.url logoutRoute) = none →
        sent (e.Refresh lib env ctx hist).events =
          s ++ [e.client.logoutRequest (cycleContext env ctx hist)]) := by
    rcases Refresh_spec lib env e ctx hist with ⟨err, t0, hrun, -, r0, -⟩ |
      ⟨t0, tl, res, c0, r0, s0, -, hg, hev, cl, rl, -, hsl⟩
    · rw [hrun] at hlogin
      simp [r0] at hlogin
    · rcases scrape_spec lib env e (cycleContext env ctx hist) (hist ++ t0) with
        ⟨cpu, mem, wanInfo, wanStats, lanStats, w24, w5, -, -, hc, -, hs⟩ |
        ⟨k, op', cause, oks, -, -, -, -, hc, -, -, -, hs⟩
      · refine ⟨7, _, by rw [hev]; simp [calls_append, c0, cl, hc, fetchOps],
          (s0.append hs), fun hreq => ?_⟩
        rw [hev]
        simp only [sent_append, hsl hreq]
      · refine ⟨k + 1, _, by rw [hev]; simp [calls_append, c0, cl, hc], (s0.append hs),
          fun hreq => ?_⟩
        rw [hev]
        simp only [sent_append, hsl hreq]
  obtain ⟨k, s, hk, hs, hsent⟩ := hshape
  refine ⟨⟨_, take_fetchOps_prefix k, hk⟩, ?_, ?_, fun hreq => ?_,
    fun env2 h => Refresh_congr lib ctx hist (Agree_of_SameButLogout h _)⟩
  · rw [hk]
    simp [List.count_cons, List.count_append, List.count_eq_zero.mpr (logout_not_mem_take k)]
  · rw [hk]
    exact List.getLast?_concat _
  · rw [hsent hreq]
    refine ⟨List.getLast?_concat _, ?_⟩
    have hnot : e.client.logoutRequest (cycleContext env ctx hist) ∉
        e.client.request (cycleContext env ctx hist) Op.Login ::
          (fetchOps.take k).map (e.client.request (cycleContext env ctx hist)) := by
      intro hmem
      rcases List.mem_cons.mp hmem with h | h
      · exact request_ne_logout e.client _ .Login (by decide) h.symm
      · obtain ⟨op, hop, heq⟩ := List.mem_map.mp h
        exact request_ne_logout e.client _ op
          (fun hl => logout_not_mem_take k (hl ▸ hop)) heq
    have hzero : s.count (e.client.logoutRequest (cycleContext env ctx hist)) = 0 :=
      Nat.le_zero.mp ((hs.count_le _).trans (List.count_eq_zero.mpr hnot).le)
    simp [List.count_append, hzero]

/-- C3 (login failure): in every run of `Refresh` in which `Login` returns an
error `cause`, `Refresh` returns the error "login" wrapping `cause`, `Login`
is the only client method called (no fetch, no logout), no request other than
the login request is sent, and every gauge and the WAN info vector are left
as they were. -/
theorem Refresh_login_error (lib : Lib) (env : Env) (e : Exporter) (ctx : Context)
    (hist : List Event) (cause : Error)
    (hlogin : (Op.Login, Except.error cause) ∈ returns (e.Refresh lib env ctx hist).events) :
    (e.Refresh lib env ctx hist).err = some (.wrap "login" cause) ∧
    calls (e.Refresh lib env ctx hist).events = [Op.Login] ∧
    (sent (e.Refresh lib env ctx hist).events).Sublist
      [e.client.loginRequest (cycleContext env ctx hist)] ∧
    (e.Refresh lib env ctx hist).g = e.g := by
  rcases Refresh_spec lib env e ctx hist with ⟨err, t0, hrun, c0, r0, s0⟩ |
    ⟨t0, tl, res, c0, r0, -, -, hg, hev, cl, rl, -⟩
  · rw [hrun] at hlogin ⊢
    simp [r0] at hlogin
    subst hlogin
    exact ⟨rfl, c0, s0, rfl⟩
  · exfalso
    rw [hev] at hlogin
    simp only [returns_append, r0, rl] at hlogin
    rcases scrape_spec lib env e (cycleContext env ctx hist) (hist ++ t0) with
      ⟨cpu, mem, wanInfo, wanStats, lanStats, w24, w5, -, -, -, hr, -⟩ |
      ⟨k, op', cause', oks, hk, hop, -, -, -, hr, hoks, -, -⟩
    · simp [hr] at hlogin
    · have hne := (fetchOps_index hk hop).2.2.1
      have : Op.Login ∉ oks.map Prod.fst := by
        rw [hoks]; intro h; have := List.mem_of_mem_take h; simp [fetchOps] at this
      simp [hr] at hlogin
      rcases hlogin with h | h
      · exact this (List.mem_map.mpr ⟨_, h, rfl⟩)
      · exact hne h.1.symm

/-- C4 (fetch order and fail-fast): in every run of `Refresh` after a login
without error, the fetches are called in the order CPU, memory, WAN info, WAN
stats, LAN stats, Wi-Fi 2.4GHz, Wi-Fi 5GHz (the calls are a prefix of that
order, between `Login` and `Logout`, and the requests sent follow it); when
the fetch `op` returns an error `cause`, exactly the fetches up to and
including `op` are called, none after it, and `Refresh` returns the error
labelled with `op` that wraps `cause`; when no fetch returns an error all
seven are called and `Refresh` returns no error. -/
theorem Refresh_fetch_order (lib : Lib) (env : Env) (e : Exporter) (ctx : Context)
    (hist : List Event)
    (hlogin : (Op.Login, Except.ok Value.unit) ∈ returns (e.Refresh lib env ctx hist).events) :
    (∃ fs, fs <+: fetchOps ∧
      calls (e.Refresh lib env ctx hist).events = Op.Login :: fs ++ [Op.Logout] ∧
      (sent (e.Refresh lib env ctx hist).events).Sublist
        (e.client.request (cycleContext env ctx hist) .Login ::
          fs.map (e.client.request (cycleContext env ctx hist)) ++
            [e.client.request (cycleContext env ctx hist) .Logout])) ∧
    (∀ op cause, op ∈ fetchOps →
      (op, Except.error cause) ∈ returns (e.Refresh lib env ctx hist).events →
      calls (e.Refresh lib env ctx hist).events =
        Op.Login :: fetchOps.take (fetchOps.indexOf op + 1) ++ [Op.Logout] ∧
      (e.Refresh lib env ctx hist).err = some (.wrap (fetchLabel op) cause)) ∧
    ((∀ op cause, op ∈ fetchOps →
        (op, Except.error cause) ∉ returns (e.Refresh lib env ctx hist).events) →
      calls (e.Refresh lib env ctx hist).events = Op.Login :: fetchOps ++ [Op.Logout] ∧
      (e.Refresh lib env ctx hist).err = none) := by
  rcases Refresh_spec lib env e ctx hist with ⟨err, t0, hrun, -, r0, -⟩ |
    ⟨t0, tl, res, c0, r0, s0, herr, hg, hev, cl, rl, sl, -⟩
  · rw [hrun] at hlogin
    simp [r0] at hlogin
  · rcases scrape_spec lib env e (cycleContext env ctx hist) (hist ++ t0) with
      ⟨cpu, mem, wanInfo, wanStats, lanStats, w24, w5, he, -, hc, hr, hs⟩ |
      ⟨k, op', cause', oks, hk, hop, he, -, hc, hr, hoks, hok, hs⟩
    · have hcalls : calls (e.Refresh lib env ctx hist).events =
          Op.Login :: fetchOps ++ [Op.Logout] := by
        rw [hev]; simp [calls_append, c0, cl, hc]
      refine ⟨⟨fetchOps, List.prefix_refl _, hcalls, ?_⟩, ?_, fun _ => ⟨hcalls, by rw [herr, he]⟩⟩
      · rw [hev]
        simp only [sent_append]
        exact (s0.append hs).append sl
      · intro op cause hmem hin
        exfalso
        rw [hev] at hin
        simp only [returns_append, r0, hr, rl] at hin
        simp at hin
        obtain ⟨rfl, -⟩ := hin
        simp [fetchOps] at hmem
    · obtain ⟨hidx, hmem', hne1, hne2⟩ := fetchOps_index hk hop
      have hcalls : calls (e.Refresh lib env ctx hist).events =
          Op.Login :: fetchOps.take (k + 1) ++ [Op.Logout] := by
        rw [hev]; simp [calls_append, c0, cl, hc]
      have hret : returns (e.Refresh lib env ctx hist).events =
          (Op.Login, Except.ok Value.unit) :: oks ++
            [(op', Except.error cause'), (Op.Logout, res)] := by
        rw [hev]; simp [returns_append, r0, rl, hr]
      refine ⟨⟨_, take_fetchOps_prefix (k + 1), hcalls, ?_⟩, ?_, ?_⟩
      · rw [hev]
        simp only [sent_append]
        exact (s0.append hs).append sl
      · intro op cause hmem hin
        rw [hret] at hin
        simp at hin
        rcases hin with h | h | h
        · obtain ⟨v, hv⟩ := hok _ h
          simp at hv
        · obtain ⟨rfl, rfl⟩ := h
          rw [hidx]
          exact ⟨hcalls, by rw [herr, he]⟩
        · obtain ⟨rfl, -⟩ := h
          simp [fetchOps] at hmem
      · intro hnone
        exfalso
        exact hnone op' cause' hmem' (by rw [hret]; simp)

theorem Refresh_failed_fetch_keeps_gauges_witness :
    (Op.Login, Except.ok Value.unit) ∈
        returns (demoExporter.Refresh demoLib envMemDown Background []).events ∧
      (Op.FetchMem, Except.error (Error.status 500 "/api/v1/device/mem" (ascii "oops"))) ∈
        returns (demoExporter.Refresh demoLib envMemDown Background []).events ∧
      (demoExporter.Refresh demoLib envMemDown Background []).g = demoExporter.g :=
  ⟨by decide, by decide,
    Refresh_failed_fetch_keeps_gauges demoLib envMemDown demoExporter Background [] (by decide)
      ⟨.FetchMem, .status 500 "/api/v1/device/mem" (ascii "oops"), by decide, by decide⟩⟩

theorem Refresh_logout_once_witness :
    ((Op.Login, Except.ok Value.unit) ∈
        returns (demoExporter.Refresh demoLib envMemDown Background []).events ∧
      (calls (demoExporter.Refresh demoLib envMemDown Background []).events).count Op.Logout = 1 ∧
      (calls (demoExporter.Refresh demoLib envMemDown Background []).events).getLast? =
        some Op.Logout ∧
      (sent (demoExporter.Refresh demoLib envMemDown Background []).events).getLast? =
        some (demoClient.logoutRequest (cycleContext envMemDown Background []))) ∧
    ((Op.Login, Except.ok Value.unit) ∈
        returns (demoExporter.Refresh demoLib (timedEnv slowDevice) Background []).events ∧
      (demoExporter.Refresh demoLib (timedEnv slowDevice) Background []).err =
        some (.wrap "fetch wan stats" (.wrap "request /api/v1/wan/ip/stats" (.lib
          "Get \"http://192.168.1.254/api/v1/wan/ip/stats\": context deadline exceeded"))) ∧
      (Event.log "logout failed" (.wrap "logout request" (.lib
          "Post \"http://192.168.1.254/api/v1/logout\": context deadline exceeded"))) ∈
        (demoExporter.Refresh demoLib (timedEnv slowDevice) Background []).events ∧
      (calls (demoExporter.Refresh demoLib (timedEnv slowDevice) Background []).events).count
        Op.Logout = 1 ∧
      (sent (demoExporter.Refresh demoLib (timedEnv slowDevice) Background []).events).getLast? =
        some (demoClient.logoutRequest (cycleContext (timedEnv slowDevice) Background [])) ∧
      (sent (demoExporter.Refresh demoLib (timedEnv slowDevice) Background []).events).count
        (demoClient.logoutRequest (cycleContext (timedEnv slowDevice) Background [])) = 1) :=
  ⟨⟨by decide,
      (Refresh_logout_once demoLib envMemDown demoExporter Background [] (by decide)).2.1,
      (Refresh_logout_once demoLib envMemDown demoExporter Background [] (by decide)).2.2.1,
      ((Refresh_logout_once demoLib envMemDown demoExporter Background []
        (by decide)).2.2.2.1 rfl).1⟩,
    by decide, by decide, by decide,
    (Refresh_logout_once demoLib (timedEnv slowDevice) demoExporter Background []
      (by decide)).2.1,
    ((Refresh_logout_once demoLib (timedEnv slowDevice) demoExporter Background []
      (by decide)).2.2.2.1 rfl).1,
    ((Refresh_logout_once demoLib (timedEnv slowDevice) demoExporter Background []
      (by decide)).2.2.2.1 rfl).2⟩

theorem Refresh_login_error_witness :
    (Op.Login, Except.error (Error.loginFailed 403 (ascii "Forbidden"))) ∈
        returns (demoExporter.Refresh demoLib envForbidden Background []).events ∧
      (demoExporter.Refresh demoLib envForbidden Background []).err =
        some (.wrap "login" (.loginFailed 403 (ascii "Forbidden"))) ∧
      calls (demoExporter.Refresh demoLib envForbidden Background []).events = [Op.Login] ∧
      (demoExporter.Refresh demoLib envForbidden Background []).g = demoExporter.g :=
  ⟨by decide,
    (Refresh_login_error demoLib envForbidden demoExporter Background []
      (.loginFailed 403 (ascii "Forbidden")) (by decide)).1,
    (Refresh_login_error demoLib envForbidden demoExporter Background []
      (.loginFailed 403 (ascii "Forbidden")) (by decide)).2.1,
    (Refresh_login_error demoLib envForbidden demoExporter Background []
      (.loginFailed 403 (ascii "Forbidden")) (by decide)).2.2.2⟩

theorem Refresh_fetch_order_witness :
    (Op.Login, Except.ok Value.unit) ∈
        returns (demoExporter.Refresh demoLib envMemDown Background []).events ∧
      calls (demoExporter.Refresh demoLib envMemDown Background []).events =
        [Op.Login, Op.FetchCPU, Op.FetchMem, Op.Logout] ∧
      (demoExporter.Refresh demoLib envMemDown Background []).err =
        some (.wrap "fetch mem" (.status 500 "/api/v1/device/mem" (ascii "oops"))) :=
  ⟨by decide,
    ((Refresh_fetch_order demoLib envMemDown demoExporter Background [] (by decide)).2.1
      .FetchMem (.status 500 "/api/v1/device/mem" (ascii "oops")) (by decide) (by decide)).1,
    ((Refresh_fetch_order demoLib envMemDown demoExporter Background [] (by decide)).2.1
      .FetchMem (.status 500 "/api/v1/device/mem" (ascii "oops")) (by decide) (by decide)).2⟩

/-! ## The fetches: C5 and C6 -/

theorem get_status_error (env : Env) (c : Client) (ctx : Context) (rt : String)
    (hist : List Event) (resp : Response) (hreq : env.NewRequest "GET" (c.url rt) = none)
    (hdo : env.Do c.httpClient (sent hist) (c.getRequest ctx rt) = .ok resp)
    (hst : resp.StatusCode ≥ 400) :
    (c.get env ctx rt hist).1 = .error (.status resp.StatusCode rt (resp.Body.take 512)) := by
  unfold Client.get
  rw [hreq]
  simp only [hdo]
  rw [if_pos hst]

theorem fetchSingle_status_error {T : Type} (U : Bytes → Except String (List T)) (env : Env)
    (c : Client) (ctx : Context) (rt : String) (hist : List Event) (resp : Response)
    (hreq : env.NewRequest "GET" (c.url rt) = none)
    (hdo : env.Do c.httpClient (sent hist) (c.getRequest ctx rt) = .ok resp)
    (hst : resp.StatusCode ≥ 400) :
    (fetchSingle U env ctx c rt hist).1 =
      .error (.status resp.StatusCode rt (resp.Body.take 512)) := by
  have h := get_status_error env c ctx rt hist resp hreq hdo hst
  unfold fetchSingle
  split
  · next err evs heq =>
    rw [heq] at h
    have herr : err = .status resp.StatusCode rt (resp.Body.take 512) := by simpa using h
    rw [herr]
  · next body evs heq =>
    rw [heq] at h
    cases h

/-- C5: for each of the seven fetch methods, when the request is answered by a
response whose status code is at least 400, the fetch returns the status error
carrying that code (with the route and the first 512 bytes of the body) and no
value, whatever the body is and whatever the JSON decoder would make of it. -/
theorem fetch_status_error (lib : Lib) (env : Env) (c : Client) (ctx : Context)
    (hist : List Event) (op : Op) (resp : Response) (hop : op ∈ fetchOps)
    (hreq : env.NewRequest "GET" (c.url (route op)) = none)
    (hdo : env.Do c.httpClient (sent hist) (c.getRequest ctx (route op)) = .ok resp)
    (hst : resp.StatusCode ≥ 400) :
    c.fetch lib env ctx op hist =
      .error (.status resp.StatusCode (route op) (resp.Body.take 512)) := by
  have key : ∀ (T : Type) (U : Bytes → Except String (List T)),
      (fetchSingle U env ctx c (route op) hist).1 =
        .error (.status resp.StatusCode (route op) (resp.Body.take 512)) :=
    fun T U => fetchSingle_status_error U env c ctx (route op) hist resp hreq hdo hst
  simp only [fetchOps, List.mem_cons, List.mem_singleton, List.not_mem_nil, or_false] at hop
  rcases hop with rfl | rfl | rfl | rfl | rfl | rfl | rfl <;>
    simp only [Client.fetch, Client.FetchCPU, Client.FetchMem, Client.FetchWanIPInfo,
      Client.FetchWanIPStats, Client.FetchLanStats, Client.FetchWireless24Stats,
      Client.FetchWireless5Stats] <;>
    (simp only [route] at key; rw [key]; rfl)

theorem fetch_status_error_witness :
    demoClient.fetch demoLib envTeapot Background .FetchWanIPInfo [] =
      .error (.status 418 "/api/v1/wan/ip" (ascii "[\x7b\x7d]")) :=
  fetch_status_error demoLib envTeapot demoClient Background [] .FetchWanIPInfo
    ⟨418, ascii "[\x7b\x7d]", none⟩ (by decide) (by decide) (by decide) (by decide)

/-- C6: when the body was received (`get` returned it without error) and the
repaired body decodes to a slice `payload`, `fetchSingle` returns the
empty-response error exactly when `payload` has no element, and otherwise
returns the first element of `payload` with no error. An empty slice is never
indexed and never reported as a decoding error. -/
theorem fetchSingle_first_or_empty {T : Type} (U : Bytes → Except String (List T)) (env : Env)
    (c : Client) (ctx : Context) (rt : String) (hist : List Event) (body : Bytes)
    (payload : List T)
    (hget : (c.get env ctx rt hist).1 = .ok body) (hdec : U (repair body) = .ok payload) :
    ((fetchSingle U env ctx c rt hist).1 = .error (.emptyResponse rt) ↔ payload.length = 0) ∧
    (∀ h : 0 < payload.length,
      (fetchSingle U env ctx c rt hist).1 = .ok (payload.get ⟨0, h⟩)) := by
  unfold fetchSingle
  split
  · next err evs heq =>
    rw [heq] at hget
    cases hget
  · next body' evs heq =>
    rw [heq] at hget
    cases hget
    simp only [repair] at hdec
    simp only [hdec]
    cases payload with
    | nil => simp
    | cons first rest => simp

theorem fetchSingle_first_or_empty_witness :
    (fetchSingle decodeCPU envEmptyArray Background demoClient "/api/v1/device/cpu" []).1 =
        .error (.emptyResponse "/api/v1/device/cpu") ↔ ([] : List DeviceCPU).length = 0 :=
  (fetchSingle_first_or_empty decodeCPU envEmptyArray demoClient Background
    "/api/v1/device/cpu" [] (ascii "[]") [] (by decide) (by decide)).1

/-! ## The payload repair: C9 -/

theorem committedBug_eq :
    committedBug = [99, 111, 109, 109, 105, 116, 116, 101, 100, 97, 115, 34, 58, 10, 9, 125] := by
  decide

theorem committedFix_eq :
    committedFix =
      [99, 111, 109, 109, 105, 116, 116, 101, 100, 97, 115, 34, 58, 48, 10, 9, 125] := by
  decide

theorem replaceFrom_skip (old new : Bytes) (k : Nat) (s : Bytes) :
    replaceFrom old new k s = replaceFrom old new 0 (s.drop k) := by
  induction s generalizing k with
  | nil => cases k <;> simp [replaceFrom]
  | cons b s ih =>
    cases k with
    | zero => simp
    | succ k => simp only [replaceFrom, List.drop_succ_cons]; exact ih k

theorem repair_nil : repair [] = [] := rfl

theorem repair_cons (b : Nat) (s : Bytes) :
    repair (b :: s) =
      if committedBug.isPrefixOf (b :: s) then committedFix ++ repair (s.drop 15)
      else b :: repair s := by
  simp only [repair, ReplaceAll, replaceFrom]
  rw [replaceFrom_skip]
  rfl

/-- A prefix that holds no byte `c` is not produced by the repair: if the
repaired text starts with it, so does the text. -/
theorem prefix_of_repair (p : Bytes) (hp : 99 ∉ p) (s : Bytes)
    (h : p.isPrefixOf (repair s) = true) : p.isPrefixOf s = true := by
  induction p generalizing s with
  | nil => simp
  | cons a p ih =>
    have ha : a ≠ 99 := fun h => hp (by simp [h])
    have hp' : 99 ∉ p := fun h => hp (by simp [h])
    cases s with
    | nil => simp [repair_nil] at h
    | cons b s =>
      rw [repair_cons] at h
      split at h
      · rw [committedFix_eq] at h
        simp [List.isPrefixOf] at h
        exact absurd h.1 ha
      · simp only [List.isPrefixOf, Bool.and_eq_true] at h ⊢
        exact ⟨h.1, ih hp' s h.2⟩

theorem clean_fix_append (r : Bytes) (h : Clean r) : Clean (committedFix ++ r) := by
  rw [committedFix_eq]
  simp [Clean, committedBug_eq, List.isPrefixOf, h]

theorem clean_repair_aux (n : Nat) : ∀ s : Bytes, s.length ≤ n → Clean (repair s) := by
  induction n with
  | zero =>
    intro s hs
    have : s = [] := List.length_eq_zero.mp (Nat.le_zero.mp hs)
    subst this
    simp [repair_nil, Clean]
  | succ n ih =>
    intro s hs
    cases s with
    | nil => simp [repair_nil, Clean]
    | cons b s =>
      have hlen : s.length ≤ n := by simpa using hs
      rw [repair_cons]
      split
      · exact clean_fix_append _ (ih _ (by simp; omega))
      · next hno =>
        refine ⟨?_, ih s hlen⟩
        by_contra hyes
        apply hno
        rw [Bool.not_eq_false] at hyes
        rw [committedBug_eq] at hyes ⊢
        simp only [List.isPrefixOf, Bool.and_eq_true] at hyes ⊢
        refine ⟨hyes.1, ?_⟩
        exact prefix_of_repair _ (by decide) s hyes.2

theorem clean_repair (s : Bytes) : Clean (repair s) := clean_repair_aux s.length s le_rfl

/-- Text without the malformed fragment passes through the repair unchanged. -/
theorem repair_of_clean (s : Bytes) (h : Clean s) : repair s = s := by
  induction s with
  | nil => rfl
  | cons b s ih =>
    rw [repair_cons, h.1]
    simp [ih h.2]

/-- C9: the payload repair (every instance of `committedBug` replaced by
`committedFix`) is idempotent: repairing a repaired body changes nothing. -/
theorem repair_idempotent (x : Bytes) : repair (repair x) = repair x :=
  repair_of_clean (repair x) (clean_repair x)

/-! ## The WAN IP up gauge: C10 -/

theorem foldWalk_ascii_pair (lib : Lib) (lo hi : Nat) (hlo : lo = 117 ∨ lo = 112)
    (hhi : 128 ≤ hi) : foldWalk lib 8 (SimpleFold lib lo) lo hi ≠ hi := by
  rcases hlo with rfl | rfl <;>
    simp [foldWalk, SimpleFold, asciiFold, MaxRune] <;> split <;> omega

theorem equalFoldUnicode_nil_right (lib : Lib) (s : List Nat) :
    equalFoldUnicode lib s [] = true ↔ s = [] := by
  cases s <;> simp [equalFoldUnicode]

theorem equalFoldASCII_nil_right (lib : Lib) (s : List Nat) :
    equalFoldASCII lib s [] = true ↔ s = [] := by
  cases s <;> simp [equalFoldASCII]

/-- One step of the Unicode path against a lower-case ASCII `u` or `p`. -/
theorem equalFoldUnicode_step (lib : Lib) (a t : Nat) (s ts : List Nat)
    (ht : t = 117 ∨ t = 112) :
    equalFoldUnicode lib (a :: s) (t :: ts) = true ↔
      (a = t ∨ a + 32 = t) ∧ equalFoldUnicode lib s ts = true := by
  rw [equalFoldUnicode]
  simp only [RuneSelf]
  by_cases h1 : t = a
  · simp [h1]
  · rw [if_neg h1]
    by_cases h2 : t < a
    · simp only [h2, if_true]
      by_cases h3 : a < 128
      · rw [if_pos h3]
        have : ¬ (65 ≤ t ∧ t ≤ 90 ∧ a = t + 32) := by rcases ht with rfl | rfl <;> omega
        rw [if_neg this]
        simp
        omega
      · rw [if_neg h3]
        have hw := foldWalk_ascii_pair lib t a ht (by omega)
        rw [if_neg hw]
        simp
        omega
    · simp only [h2, if_false]
      have h3 : t < 128 := by rcases ht with rfl | rfl <;> omega
      rw [if_pos h3]
      by_cases h4 : 65 ≤ a ∧ a ≤ 90 ∧ t = a + 32
      · rw [if_pos h4]
        simp
        omega
      · rw [if_neg h4]
        simp
        rcases ht with rfl | rfl <;> omega

theorem equalFoldUnicode_up (lib : Lib) (s : List Nat) :
    equalFoldUnicode lib s [117, 112] = true ↔
      ∃ a b, s = [a, b] ∧ (a = 117 ∨ a = 85) ∧ (b = 112 ∨ b = 80) := by
  cases s with
  | nil => simp [equalFoldUnicode]
  | cons a s =>
    rw [equalFoldUnicode_step lib a 117 s [112] (Or.inl rfl)]
    cases s with
    | nil => simp [equalFoldUnicode]
    | cons b s =>
      rw [equalFoldUnicode_step lib b 112 s [] (Or.inr rfl), equalFoldUnicode_nil_right]
      constructor
      · rintro ⟨ha, hb, rfl⟩
        exact ⟨a, b, rfl, by omega, by omega⟩
      · rintro ⟨a', b', h, ha, hb⟩
        simp at h
        obtain ⟨rfl, rfl, rfl⟩ := h
        exact ⟨by omega, by omega, rfl⟩

/-- One step of the fast path against a lower-case ASCII `u` or `p`. -/
theorem equalFoldASCII_step (lib : Lib) (a t : Nat) (s ts : List Nat)
    (ht : t = 117 ∨ t = 112) :
    equalFoldASCII lib (a :: s) (t :: ts) = true ↔
      (a = t ∨ a + 32 = t) ∧ equalFoldASCII lib s ts = true := by
  rw [equalFoldASCII]
  simp only [RuneSelf]
  by_cases h0 : a ≥ 128 ∨ t ≥ 128
  · rw [if_pos h0, equalFoldUnicode_step lib a t s ts ht]
    have ha : 128 ≤ a := by rcases ht with rfl | rfl <;> omega
    constructor
    · rintro ⟨h, -⟩
      rcases ht with rfl | rfl <;> omega
    · rintro ⟨h, -⟩
      rcases ht with rfl | rfl <;> omega
  · rw [if_neg h0]
    by_cases h1 : t = a
    · simp [h1]
    · rw [if_neg h1]
      by_cases h2 : t < a
      · simp only [h2, if_true]
        have : ¬ (65 ≤ t ∧ t ≤ 90 ∧ a = t + 32) := by rcases ht with rfl | rfl <;> omega
        rw [if_neg this]
        simp
        omega
      · simp only [h2, if_false]
        by_cases h4 : 65 ≤ a ∧ a ≤ 90 ∧ t = a + 32
        · rw [if_pos h4]
          simp
          omega
        · rw [if_neg h4]
          simp
          rcases ht with rfl | rfl <;> omega

theorem equalFoldASCII_up (lib : Lib) (s : List Nat) :
    equalFoldASCII lib s [117, 112] = true ↔
      ∃ a b, s = [a, b] ∧ (a = 117 ∨ a = 85) ∧ (b = 112 ∨ b = 80) := by
  cases s with
  | nil => simp [equalFoldASCII]
  | cons a s =>
    rw [equalFoldASCII_step lib a 117 s [112] (Or.inl rfl)]
    cases s with
    | nil => simp [equalFoldASCII]
    | cons b s =>
      rw [equalFoldASCII_step lib b 112 s [] (Or.inr rfl), equalFoldASCII_nil_right]
      constructor
      · rintro ⟨ha, hb, rfl⟩
        exact ⟨a, b, rfl, by omega, by omega⟩
      · rintro ⟨a', b', h, ha, hb⟩
        simp at h
        obtain ⟨rfl, rfl, rfl⟩ := h
        exact ⟨by omega, by omega, rfl⟩

theorem char_of_toNat (c : Char) (n : Nat) (h : c.toNat = n) : c = Char.ofNat n := by
  rw [← h, Char.ofNat_toNat]

/-- Go `strings.EqualFold(s, "up")` holds for the four spellings of "up" and
for no other string, whatever the fold tables beyond ASCII are. -/
theorem EqualFold_up (lib : Lib) (s : String) :
    EqualFold lib s "up" = true ↔ s ∈ ["up", "Up", "uP", "UP"] := by
  have hup : ("up".toList.map Char.toNat) = [117, 112] := by decide
  unfold EqualFold
  rw [hup, equalFoldASCII_up]
  constructor
  · rintro ⟨a, b, h, ha, hb⟩
    obtain ⟨cs⟩ := s
    simp only [String.toList] at h
    match cs, h with
    | [c1, c2], h =>
      simp only [List.map_cons, List.map_nil, List.cons.injEq, and_true] at h
      obtain ⟨h1, h2⟩ := h
      rcases ha with rfl | rfl <;> rcases hb with rfl | rfl <;>
        (rw [char_of_toNat c1 _ h1, char_of_toNat c2 _ h2]; decide)
  · intro h
    simp only [List.mem_cons, List.mem_singleton, List.not_mem_nil, or_false] at h
    rcases h with rfl | rfl | rfl | rfl
    · exact ⟨117, 112, by decide, by decide, by decide⟩
    · exact ⟨85, 112, by decide, by decide, by decide⟩
    · exact ⟨117, 80, by decide, by decide, by decide⟩
    · exact ⟨85, 80, by decide, by decide, by decide⟩

/-- C10: after every run of `Refresh` that returns no error, the gauge
`bb_wan_ip_state_up` is 1 when the state string of the WAN info that was
fetched in the run is "up" in any letter case ("up", "Up", "uP", "UP"), and 0
for every other state string; in particular it is 0 for the empty string,
which is what an absent field decodes to. -/
theorem Refresh_wanIPState (lib : Lib) (env : Env) (e : Exporter) (ctx : Context)
    (hist : List Event) (wanInfo : WanIPInfo) (hok : (e.Refresh lib env ctx hist).err = none)
    (hret : (Op.FetchWanIPInfo, Except.ok (Value.wanInfo wanInfo)) ∈
      returns (e.Refresh lib env ctx hist).events) :
    (e.Refresh lib env ctx hist).g.wanIPState =
        (if wanInfo.Wan.IP.State ∈ ["up", "Up", "uP", "UP"] then 1 else 0) ∧
      (wanInfo.Wan.IP.State = "" → (e.Refresh lib env ctx hist).g.wanIPState = 0) := by
  have main : (e.Refresh lib env ctx hist).g.wanIPState =
      (if wanInfo.Wan.IP.State ∈ ["up", "Up", "uP", "UP"] then 1 else 0) := by
    rcases Refresh_spec lib env e ctx hist with ⟨err, t0, hrun, -, r0, -⟩ |
      ⟨t0, tl, res, -, r0, -, herr, hg, hev, -, rl, -⟩
    · rw [hrun] at hok
      cases hok
    · rcases scrape_spec lib env e (cycleContext env ctx hist) (hist ++ t0) with
        ⟨cpu, mem, wanInfo', wanStats, lanStats, w24, w5, -, hg', -, hr, -⟩ |
        ⟨k, op', cause, oks, -, -, he, -⟩
      · rw [hev] at hret
        simp only [returns_append, r0, hr, rl] at hret
        simp at hret
        subst hret
        rw [hg, hg']
        simp only [gauges.apply, Exporter.updates, List.foldl]
        by_cases hs : wanInfo.Wan.IP.State ∈ ["up", "Up", "uP", "UP"]
        · rw [if_pos hs, if_pos ((EqualFold_up lib _).mpr hs)]
        · rw [if_neg hs, if_neg (fun h => hs ((EqualFold_up lib _).mp h))]
      · rw [herr, he] at hok
        cases hok
  refine ⟨main, fun h => ?_⟩
  rw [main, h]
  decide

theorem Refresh_wanIPState_witness :
    ((demoExporter.Refresh demoLib envUp Background []).err = none ∧
      (Op.FetchWanIPInfo, Except.ok (Value.wanInfo wanInfoUp)) ∈
        returns (demoExporter.Refresh demoLib envUp Background []).events ∧
      (demoExporter.Refresh demoLib envUp Background []).g.wanIPState =
        (if "Up" ∈ ["up", "Up", "uP", "UP"] then 1 else 0)) ∧
    ((demoExporter.Refresh demoLib envBare Background []).err = none ∧
      (demoExporter.Refresh demoLib envBare Background []).g.wanIPState = 0) :=
  ⟨⟨by decide, by decide,
      (Refresh_wanIPState demoLib envUp demoExporter Background [] wanInfoUp (by decide)
        (by decide)).1⟩,
    by decide,
    (Refresh_wanIPState demoLib envBare demoExporter Background [] default (by decide)
      (by decide)).2 (by decide)⟩

/-! ## The numeric-tolerant decoder: C7 and C8 -/

theorem digitsValue_cons (acc c : Nat) (ds : Bytes) :
    digitsValue acc (c :: ds) = digitsValue (acc * 10 + (c - 48)) ds := rfl

theorem digitsValue_append (acc : Nat) (ds es : Bytes) :
    digitsValue acc (ds ++ es) = digitsValue (digitsValue acc ds) es := by
  simp [digitsValue, List.foldl_append]

theorem le_digitsValue (acc : Nat) (ds : Bytes) : acc ≤ digitsValue acc ds := by
  induction ds generalizing acc with
  | nil => exact le_rfl
  | cons c ds ih =>
    rw [digitsValue_cons]
    exact le_trans (by omega) (ih _)

/-- The digits of `decimal m` denote `m`. -/
theorem digitsValue_decimal_aux (L : List Nat) :
    digitsValue 0 (L.reverse.map (fun d => d + 48)) = Nat.ofDigits 10 L := by
  induction L with
  | nil => rfl
  | cons d L ih =>
    rw [List.reverse_cons, List.map_append, digitsValue_append, ih, Nat.ofDigits_cons]
    simp [digitsValue]
    omega

theorem decimal_spec (m : Nat) (hm : m ≠ 0) :
    ∃ d ds, decimal m = d :: ds ∧ 49 ≤ d ∧ d ≤ 57 ∧ IsDigits ds ∧
      digitsValue 0 (d :: ds) = m := by
  have hval : digitsValue 0 (decimal m) = m := by
    unfold decimal
    rw [if_neg hm, digitsValue_decimal_aux, Nat.ofDigits_digits]
  have hall : ∀ c ∈ decimal m, 48 ≤ c ∧ c ≤ 57 := by
    intro c hc
    unfold decimal at hc
    rw [if_neg hm] at hc
    simp only [List.mem_map, List.mem_reverse] at hc
    obtain ⟨d, hd, rfl⟩ := hc
    have := Nat.digits_lt_base (by norm_num : 1 < 10) hd
    omega
  have hne : Nat.digits 10 m ≠ [] := Nat.digits_ne_nil_iff_ne_zero.mpr hm
  have hlast := Nat.getLast_digit_ne_zero 10 hm
  have hhead : (decimal m).head? = some ((Nat.digits 10 m).getLast hne + 48) := by
    unfold decimal
    rw [if_neg hm]
    simp [List.head?_map, List.head?_reverse, List.getLast?_eq_getLast _ hne]
  cases hdec : decimal m with
  | nil => rw [hdec] at hhead; simp at hhead
  | cons d ds =>
    rw [hdec] at hhead hval hall
    simp only [List.head?_cons, Option.some.injEq] at hhead
    refine ⟨d, ds, rfl, ?_, ?_, ?_, hval⟩
    · omega
    · exact (hall d (by simp)).2
    · intro c hc
      exact hall c (by simp [hc])

theorem DecodeRune_ascii (b : Nat) (p : Bytes) (hb : b < 128) : DecodeRune (b :: p) = (b, 1) := by
  simp [DecodeRune, hb]

theorem runesLoop_ascii (fuel : Nat) (p : Bytes) (hp : ∀ c ∈ p, c < 128)
    (hfuel : p.length ≤ fuel) : runesLoop fuel p = p := by
  induction p generalizing fuel with
  | nil => cases fuel <;> rfl
  | cons b p ih =>
    cases fuel with
    | zero => simp at hfuel
    | succ fuel =>
      rw [runesLoop, DecodeRune_ascii b p (hp b (by simp))]
      simp only [List.drop_succ_cons, List.drop_zero]
      rw [ih fuel (fun c hc => hp c (by simp [hc])) (by simpa using hfuel)]

theorem runes_ascii (p : Bytes) (hp : ∀ c ∈ p, c < 128) : runes p = p :=
  runesLoop_ascii p.length p hp le_rfl

theorem decimalDigits_mem (c : Nat) (h : 48 ≤ c ∧ c ≤ 57) : c ∈ decimalDigits ++ ascii "_" := by
  have : decimalDigits ++ ascii "_" = [48, 49, 50, 51, 52, 53, 54, 55, 56, 57, 95] := by decide
  rw [this]
  simp
  omega

theorem acceptLoop_digits (ds buf : Bytes) (h : IsDigits ds) :
    acceptLoop (decimalDigits ++ ascii "_") ds buf = ⟨[], buf ++ ds⟩ := by
  induction ds generalizing buf with
  | nil => simp [acceptLoop]
  | cons c ds ih =>
    rw [acceptLoop, if_pos (decimalDigits_mem c (h c (by simp)))]
    rw [ih _ (fun c hc => h c (by simp [hc]))]
    simp

theorem parseUintLoop_digits (ds : Bytes) (acc : Nat) (h : IsDigits ds)
    (hlt : digitsValue acc ds < 2 ^ 64) :
    parseUintLoop 10 true ((2 ^ 64 - 1) / 10 + 1) (2 ^ 64 - 1) ds acc false =
      .ok (digitsValue acc ds, false) := by
  induction ds generalizing acc with
  | nil => rfl
  | cons c ds ih =>
    have hc := h c (by simp)
    rw [digitsValue_cons] at hlt ⊢
    have hacc := le_digitsValue (acc * 10 + (c - 48)) ds
    have hih := ih (acc * 10 + (c - 48)) (fun c hc => h c (by simp [hc])) hlt
    rw [parseUintLoop]
    have h95 : ¬ (c = 95 ∧ true = true) := by omega
    rw [if_neg h95]
    simp only [hc, and_self, if_true]
    have h1 : ¬ (c - 48 ≥ 10) := by omega
    have h2 : ¬ (acc ≥ (2 ^ 64 - 1) / 10 + 1) := by norm_num; omega
    rw [if_neg h1, if_neg h2]
    have e1 : acc * 10 % 2 ^ 64 = acc * 10 := Nat.mod_eq_of_lt (by omega)
    have e2 : (acc * 10 + (c - 48)) % 2 ^ 64 = acc * 10 + (c - 48) :=
      Nat.mod_eq_of_lt (by omega)
    simp only [e1, e2]
    have h3 : ¬ (acc * 10 + (c - 48) < acc * 10 ∨ acc * 10 + (c - 48) > 2 ^ 64 - 1) := by omega
    rw [if_neg h3]
    exact hih

theorem ParseUint_digits (d : Nat) (ds : Bytes) (hd : 49 ≤ d ∧ d ≤ 57) (h : IsDigits ds)
    (hlt : digitsValue 0 (d :: ds) < 2 ^ 64) :
    ParseUint (d :: ds) 0 = .ok (digitsValue 0 (d :: ds)) := by
  have hall : IsDigits (d :: ds) := by
    intro c hc
    rcases List.mem_cons.mp hc with rfl | hc
    · omega
    · exact h c hc
  have hloop := parseUintLoop_digits (d :: ds) 0 hall hlt
  unfold ParseUint
  simp only [List.cons_ne_nil, reduceCtorEq, if_false]
  split
  · next heq =>
    rw [if_neg (by omega), if_pos trivial] at heq
    split at heq
    · next h48 => simp at h48; omega
    · next h48 => simp at h48; omega
    · cases heq
  · next b digits heq =>
    rw [if_neg (by omega), if_pos trivial] at heq
    split at heq
    · next h48 => simp at h48; omega
    · next h48 => simp at h48; omega
    · simp only [Option.some.injEq, Prod.mk.injEq] at heq
      obtain ⟨rfl, rfl⟩ := heq
      simp only [decide_True]
      rw [hloop]
      simp

theorem digitsValue_pos (d : Nat) (ds : Bytes) (hd : 49 ≤ d) : 0 < digitsValue 0 (d :: ds) := by
  rw [digitsValue_cons]
  exact lt_of_lt_of_le (by omega) (le_digitsValue _ ds)

/-- Go `strconv.ParseInt` on the text of a JSON integer in the `int64` range. -/
theorem ParseInt_jsonInt (n : Int) (hn : n ≠ 0) (hlo : -2 ^ 63 ≤ n) (hhi : n < 2 ^ 63) :
    ParseInt (jsonInt n) 0 = .ok n := by
  have hlo' : -9223372036854775808 ≤ n := by norm_num at hlo; exact hlo
  have hhi' : n < 9223372036854775808 := by norm_num at hhi; exact hhi
  obtain ⟨m, hm⟩ : ∃ m : Nat, n.natAbs = m := ⟨_, rfl⟩
  have habs : n = m ∨ n = -m := by rw [← hm]; exact Int.natAbs_eq n
  have hm0 : m ≠ 0 := by omega
  obtain ⟨d, ds, hdec, hd1, hd2, hds, hval⟩ := decimal_spec m hm0
  have hU : ParseUint (d :: ds) 0 = .ok m := by
    rw [← hval]
    exact ParseUint_digits d ds ⟨hd1, hd2⟩ hds (by rw [hval]; norm_num; omega)
  unfold ParseInt jsonInt
  rw [hm]
  by_cases hneg : n < 0
  · rw [if_pos hneg, hdec]
    simp only [List.cons_ne_nil, if_false, List.head?_cons, Option.some.injEq, List.drop_succ_cons,
      List.drop_zero, reduceCtorEq, Nat.reduceEqDiff, hU, true_and,
      not_true_eq_false, false_and, if_true]
    rw [if_neg (by norm_num; omega)]
    congr 1
    omega
  · rw [if_neg hneg, hdec]
    have h43 : ¬ d = 43 := by omega
    have h45 : ¬ d = 45 := by omega
    simp only [List.cons_ne_nil, if_false, List.head?_cons, Option.some.injEq, h43, h45, hU,
      not_false_eq_true, true_and, false_and, if_false]
    rw [if_neg (by norm_num; omega)]
    congr 1
    omega

theorem scanInt_digits (d : Nat) (ds : Bytes) (hd : 49 ≤ d ∧ d ≤ 57) (h : IsDigits ds) :
    scanInt (d :: ds) =
      match ParseInt (d :: ds) 0 with
      | .error e => .error (.num e (d :: ds))
      | .ok i => .ok i := by
  have hsp : SkipSpace (d :: ds) = d :: ds := by
    rw [SkipSpace]
    have h13 : ¬ d = 13 := by omega
    have h10 : ¬ d = 10 := by omega
    have hs : isSpace d = false := by simp [isSpace]; omega
    simp [h13, h10, hs]
  have hsign : d ∉ sign := by
    have : sign = [43, 45] := by decide
    rw [this]; simp; omega
  have h0 : d ∉ ascii "0" := by
    have : ascii "0" = [48] := by decide
    rw [this]; simp; omega
  have hdig : d ∈ decimalDigits ++ ascii "_" := decimalDigits_mem d (by omega)
  unfold scanInt
  rw [hsp]
  simp only [ss.accept, hsign, if_false, ss.scanBasePrefix, ss.peek, h0, decide_False,
    Bool.not_false, if_true, ss.scanNumber, hdig, acceptLoop_digits _ _ h, List.nil_append,
    List.singleton_append, Bool.not_true, Bool.false_eq_true]

theorem scanInt_minus_digits (d : Nat) (ds : Bytes) (hd : 49 ≤ d ∧ d ≤ 57) (h : IsDigits ds) :
    scanInt (45 :: d :: ds) =
      match ParseInt (45 :: d :: ds) 0 with
      | .error e => .error (.num e (45 :: d :: ds))
      | .ok i => .ok i := by
  have hsp : SkipSpace (45 :: d :: ds) = 45 :: d :: ds := by
    rw [SkipSpace]
    simp [isSpace]
  have hsign : 45 ∈ sign := by decide
  have h0 : d ∉ ascii "0" := by
    have : ascii "0" = [48] := by decide
    rw [this]; simp; omega
  have hdig : d ∈ decimalDigits ++ ascii "_" := decimalDigits_mem d (by omega)
  unfold scanInt
  rw [hsp]
  simp only [ss.accept, hsign, if_true, ss.scanBasePrefix, ss.peek, h0, decide_False,
    Bool.not_false, ss.scanNumber, hdig, acceptLoop_digits _ _ h, List.nil_append,
    List.singleton_append, List.cons_append, Bool.not_true, Bool.false_eq_true, if_false]

theorem jsonInt_spec (n : Int) (hn : n ≠ 0) :
    ∃ d ds, 49 ≤ d ∧ d ≤ 57 ∧ IsDigits ds ∧
      (jsonInt n = d :: ds ∨ jsonInt n = 45 :: d :: ds) := by
  obtain ⟨d, ds, hdec, hd1, hd2, hds, -⟩ := decimal_spec n.natAbs (by omega)
  refine ⟨d, ds, hd1, hd2, hds, ?_⟩
  unfold jsonInt
  by_cases hneg : n < 0
  · rw [if_pos hneg, hdec]; exact Or.inr rfl
  · rw [if_neg hneg, hdec]; exact Or.inl rfl

theorem jsonInt_zero : jsonInt 0 = [48] := by
  simp [jsonInt, decimal]

/-- Go `fmt.Sscan` on the text of a JSON integer in the `int64` range. -/
theorem Sscan_jsonInt (n : Int) (hlo : -2 ^ 63 ≤ n) (hhi : n < 2 ^ 63) :
    Sscan (jsonInt n) = .ok n := by
  by_cases hn : n = 0
  · subst hn
    rw [jsonInt_zero]
    decide
  · obtain ⟨d, ds, hd1, hd2, hds, hj⟩ := jsonInt_spec n hn
    have hP := ParseInt_jsonInt n hn hlo hhi
    have hasc : ∀ c ∈ jsonInt n, c < 128 := by
      intro c hc
      rcases hj with hj | hj <;> rw [hj] at hc <;> simp at hc
      · rcases hc with rfl | hc
        · omega
        · have := hds c hc; omega
      · rcases hc with rfl | rfl | hc
        · omega
        · omega
        · have := hds c hc; omega
    unfold Sscan
    rw [runes_ascii _ hasc]
    rcases hj with hj | hj <;> rw [hj] at hP ⊢
    · rw [scanInt_digits d ds ⟨hd1, hd2⟩ hds, hP]
    · rw [scanInt_minus_digits d ds ⟨hd1, hd2⟩ hds, hP]

theorem jsonInt_bytes (n : Int) : ∀ c ∈ jsonInt n, c = 45 ∨ (48 ≤ c ∧ c ≤ 57) := by
  intro c hc
  by_cases hn : n = 0
  · subst hn
    rw [jsonInt_zero] at hc
    simp at hc
    omega
  · obtain ⟨d, ds, hd1, hd2, hds, hj⟩ := jsonInt_spec n hn
    rcases hj with hj | hj <;> rw [hj] at hc <;> simp at hc
    · rcases hc with rfl | hc
      · omega
      · exact Or.inr (hds c hc)
    · rcases hc with rfl | rfl | hc
      · omega
      · omega
      · exact Or.inr (hds c hc)

theorem jsonInt_ne_nil (n : Int) : jsonInt n ≠ [] := by
  by_cases hn : n = 0
  · subst hn; rw [jsonInt_zero]; simp
  · obtain ⟨d, ds, -, -, -, hj⟩ := jsonInt_spec n hn
    rcases hj with hj | hj <;> rw [hj] <;> simp

theorem trimQuotes_quoted (x : Bytes) : trimQuotes (quoted x) = x := by
  unfold trimQuotes quoted
  have h1 : (34 :: x ++ [34]).length > 1 := by simp
  have h2 : (34 :: x ++ [34])[0]? = some 34 := by simp
  have h3 : (34 :: x ++ [34])[(34 :: x ++ [34]).length - 1]? = some 34 := by
    simp [List.getElem?_append_right]
  rw [if_pos ⟨h1, h2, h3⟩]
  simp

theorem trimQuotes_plain (x : Bytes) (h : x.head? ≠ some 34) : trimQuotes x = x := by
  unfold trimQuotes
  rw [if_neg]
  rintro ⟨-, h0, -⟩
  apply h
  cases x with
  | nil => simp at h0
  | cons a x => simpa using h0

theorem UnmarshalJSON_jsonInt (n : Int) (hlo : -2 ^ 63 ≤ n) (hhi : n < 2 ^ 63) (b : Bytes)
    (hb : trimQuotes b = jsonInt n) : FlexibleInt.UnmarshalJSON b = .ok n := by
  unfold FlexibleInt.UnmarshalJSON
  simp only [hb]
  have hne := jsonInt_ne_nil n
  have hnull : jsonInt n ≠ ascii "null" := by
    intro h
    have := jsonInt_bytes n 110 (by rw [h]; decide)
    omega
  have hlen : ¬ ((jsonInt n).length = 0 ∨ jsonInt n = ascii "null") := by
    rintro (h | h)
    · exact hne (List.length_eq_zero.mp h)
    · exact hnull h
  rw [if_neg hlen, Sscan_jsonInt n hlo hhi]

theorem jsonInt_head (n : Int) : (jsonInt n).head? ≠ some 34 := by
  intro h
  cases hj : jsonInt n with
  | nil => rw [hj] at h; simp at h
  | cons a x =>
    rw [hj] at h
    simp at h
    have := jsonInt_bytes n a (by rw [hj]; simp)
    omega

/-- C7: `FlexibleInt.UnmarshalJSON` decodes the text of a JSON integer `n` (in
the range of `int64`) and the quoted string of the same digits to the same
value `n`; the inputs `"12345"`, `12345`, `""` and `null` decode to 12345,
12345, 0 and 0 with no error, and the quoted input `"abc"` returns an error. -/
theorem UnmarshalJSON_numeric (n : Int) (hlo : -2 ^ 63 ≤ n) (hhi : n < 2 ^ 63) :
    FlexibleInt.UnmarshalJSON (jsonInt n) = .ok n ∧
    FlexibleInt.UnmarshalJSON (quoted (jsonInt n)) = .ok n ∧
    FlexibleInt.UnmarshalJSON (ascii "\"12345\"") = .ok 12345 ∧
    FlexibleInt.UnmarshalJSON (ascii "12345") = .ok 12345 ∧
    FlexibleInt.UnmarshalJSON (ascii "\"\"") = .ok 0 ∧
    FlexibleInt.UnmarshalJSON (ascii "null") = .ok 0 ∧
    FlexibleInt.UnmarshalJSON (ascii "\"abc\"") = .error .expectedInteger :=
  ⟨UnmarshalJSON_jsonInt n hlo hhi _ (trimQuotes_plain _ (jsonInt_head n)),
    UnmarshalJSON_jsonInt n hlo hhi _ (trimQuotes_quoted _),
    by decide, by decide, by decide, by decide, by decide⟩

theorem jsonInt_example : jsonInt 12345 = ascii "12345" ∧ jsonInt (-7) = ascii "-7" := by
  constructor
  · have : ascii "12345" = [49, 50, 51, 52, 53] := by decide
    rw [this]
    norm_num [jsonInt, decimal]
  · have : ascii "-7" = [45, 55] := by decide
    rw [this]
    norm_num [jsonInt, decimal]

theorem UnmarshalJSON_numeric_witness :
    FlexibleInt.UnmarshalJSON (jsonInt (-9223372036854775808)) = .ok (-9223372036854775808) ∧
      FlexibleInt.UnmarshalJSON (quoted (jsonInt (-9223372036854775808))) =
        .ok (-9223372036854775808) :=
  ⟨(UnmarshalJSON_numeric (-9223372036854775808) (by decide) (by decide)).1,
    (UnmarshalJSON_numeric (-9223372036854775808) (by decide) (by decide)).2.1⟩

/-- C8, counterexample: the quoted input `"12abc"` is not the text of a JSON
integer, not a quoted JSON integer, not empty and not `null`, and yet
`UnmarshalJSON` returns no error for it: `fmt.Sscan` stops reading after the
token `12` and the value 12 is stored. -/
theorem UnmarshalJSON_accepts_trailing_text :
    (∀ n : Int, ascii "\"12abc\"" ≠ jsonInt n ∧ ascii "\"12abc\"" ≠ quoted (jsonInt n)) ∧
    ascii "\"12abc\"" ≠ [] ∧ ascii "\"12abc\"" ≠ ascii "null" ∧
    FlexibleInt.UnmarshalJSON (ascii "\"12abc\"") = .ok 12 := by
  have hb : ascii "\"12abc\"" = [34, 49, 50, 97, 98, 99, 34] := by decide
  refine ⟨fun n => ⟨?_, ?_⟩, by decide, by decide, by decide⟩
  · intro h
    have := jsonInt_bytes n 34 (by rw [← h, hb]; simp)
    omega
  · intro h
    rw [hb] at h
    have h2 : jsonInt n = [49, 50, 97, 98, 99] := by
      have h3 : [34, 49, 50, 97, 98, 99, 34] = 34 :: ([49, 50, 97, 98, 99] ++ [34]) := rfl
      rw [h3] at h
      unfold quoted at h
      have h4 := List.cons_injective h
      exact (List.append_cancel_right h4).symm
    have := jsonInt_bytes n 97 (by rw [h2]; simp)
    omega

theorem mem_digits_or_underscore (r : Nat) :
    r ∈ decimalDigits ++ ascii "_" ↔ r ∈ decimalDigits ∨ r = 95 := by
  have h1 : ascii "_" = [95] := by decide
  rw [h1]
  simp

theorem not_mem_digits_ne_zero (r : Nat) (h : r ∉ decimalDigits) : r ∉ ascii "0" := by
  intro h0
  apply h
  have h1 : ascii "0" = [48] := by decide
  rw [h1] at h0
  simp at h0
  subst h0
  decide

theorem acceptLoop_buf (digits : Bytes) (input buf : Bytes) :
    ∃ taken, (acceptLoop digits input buf).buf = buf ++ taken := by
  induction input generalizing buf with
  | nil => exact ⟨[], by simp [acceptLoop]⟩
  | cons r rs ih =>
    rw [acceptLoop]
    split
    · obtain ⟨taken, h⟩ := ih (buf ++ [r])
      exact ⟨r :: taken, by rw [h]; simp⟩
    · exact ⟨[], by simp⟩

/-- Once an underscore was seen, the digit loop of `ParseUint` can only fail or
report that it saw one. -/
theorem parseUintLoop_underscores (base cutoff maxVal : Nat) (xs : Bytes) (n : Nat) :
    (∃ e, parseUintLoop base true cutoff maxVal xs n true = .error e) ∨
      ∃ m, parseUintLoop base true cutoff maxVal xs n true = .ok (m, true) := by
  induction xs generalizing n with
  | nil => exact Or.inr ⟨n, rfl⟩
  | cons c cs ih =>
    rw [parseUintLoop]
    dsimp only
    repeat' split
    all_goals first | exact ih _ | exact Or.inl ⟨_, rfl⟩

theorem underscoreOK_underscore (taken : Bytes) : underscoreOK (95 :: taken) = false := by
  unfold underscoreOK
  simp only [List.head?_cons, Option.some.injEq]
  have hs : ¬ ((95 :: taken).length ≥ 1 ∧ ((95 : Nat) = 45 ∨ (95 : Nat) = 43)) := by
    rintro ⟨-, h | h⟩ <;> omega
  rw [if_neg hs]
  cases taken with
  | nil => simp [underscoreLoop]
  | cons c1 rest => simp [underscoreLoop]

theorem ParseUint_underscore (taken : Bytes) : ∃ e, ParseUint (95 :: taken) 0 = .error e := by
  unfold ParseUint
  simp only [List.cons_ne_nil, if_false]
  rw [if_neg (by omega), if_pos trivial]
  split
  · next heq => cases heq
  · next b digits heq =>
    simp only [Option.some.injEq, Prod.mk.injEq] at heq
    obtain ⟨rfl, rfl⟩ := heq
    simp only [decide_True]
    rw [parseUintLoop]
    rw [if_pos ⟨rfl, rfl⟩]
    rcases parseUintLoop_underscores 10 ((2 ^ 64 - 1) / 10 + 1) (2 ^ 64 - 1) taken 0 with
      ⟨e, h⟩ | ⟨m, h⟩
    · rw [h]; exact ⟨e, rfl⟩
    · rw [h]
      simp [underscoreOK_underscore]

/-- A token whose digits start with an underscore is no integer for
`strconv.ParseInt`. -/
theorem ParseInt_underscore (pre taken : Bytes) (hpre : pre = [] ∨ pre = [43] ∨ pre = [45]) :
    ∃ e, ParseInt (pre ++ 95 :: taken) 0 = .error e := by
  obtain ⟨e, he⟩ := ParseUint_underscore taken
  rcases hpre with rfl | rfl | rfl <;>
    simp only [ParseInt, List.nil_append, List.singleton_append, List.cons_ne_nil, if_false,
      List.head?_cons, Option.some.injEq, List.drop_succ_cons, List.drop_zero, he] <;>
    cases e <;> simp [he]

theorem scanBasePrefix_no_zero (s : ss) (h : ∀ r rest, s.input = r :: rest → r ∉ decimalDigits) :
    s.scanBasePrefix = (0, decimalDigits ++ ascii "_", false, s) := by
  unfold ss.scanBasePrefix ss.peek
  cases hin : s.input with
  | nil => simp
  | cons r rest =>
    have h0 := not_mem_digits_ne_zero r (h r rest hin)
    simp [h0]

/-- What `scanInt` does after the sign, on a text that does not go on with a
decimal digit: it fails. -/
theorem scan_after_sign (pre : Bytes) (input : List Nat)
    (hpre : pre = [] ∨ pre = [43] ∨ pre = [45])
    (h : ∀ r rest, input = r :: rest → r ∉ decimalDigits) :
    ∃ err,
      (match (ss.scanNumber ⟨input, pre⟩ (decimalDigits ++ ascii "_") false) with
        | .error e => (.error e : Except ScanError Int)
        | .ok s =>
          match ParseInt s.buf 0 with
          | .error e => .error (.num e s.buf)
          | .ok i => .ok i) = .error err := by
  unfold ss.scanNumber
  cases input with
  | nil => exact ⟨_, rfl⟩
  | cons r rest =>
    have hr := h r rest rfl
    by_cases h95 : r = 95
    · subst h95
      have hmem : 95 ∈ decimalDigits ++ ascii "_" := by decide
      simp only [Bool.not_false, if_true, ss.accept, hmem, Bool.not_true, Bool.false_eq_true,
        if_false]
      obtain ⟨taken, ht⟩ := acceptLoop_buf (decimalDigits ++ ascii "_") rest (pre ++ [95])
      obtain ⟨e, he⟩ := ParseInt_underscore pre taken hpre
      rw [ht]
      have : pre ++ [95] ++ taken = pre ++ 95 :: taken := by simp
      rw [this, he]
      exact ⟨_, rfl⟩
    · have hmem : r ∉ decimalDigits ++ ascii "_" := by
        rw [mem_digits_or_underscore]
        rintro (h1 | h1)
        · exact hr h1
        · exact h95 h1
      simp only [Bool.not_false, if_true, ss.accept, hmem, if_false]
      exact ⟨_, rfl⟩

/-- A text that does not start like a number is rejected by the scanner. -/
theorem scanInt_rejects (rs : List Nat) (h : startsLikeNumber (SkipSpace rs) = false) :
    ∃ err, scanInt rs = .error err := by
  unfold scanInt
  cases hsp : SkipSpace rs with
  | nil => exact ⟨_, rfl⟩
  | cons r rest =>
    rw [hsp] at h
    simp only [startsLikeNumber] at h
    by_cases hs : r ∈ sign
    · rw [if_pos hs] at h
      have hr : r = 43 ∨ r = 45 := by
        have : sign = [43, 45] := by decide
        rw [this] at hs
        simpa using hs
      have hnext : ∀ r2 rest2, rest = r2 :: rest2 → r2 ∉ decimalDigits := by
        intro r2 rest2 hrest
        subst hrest
        simpa using h
      have hbp := scanBasePrefix_no_zero ⟨rest, [r]⟩ hnext
      have hsc := scan_after_sign [r] rest (by rcases hr with rfl | rfl <;> simp) hnext
      simp only [ss.accept, hs, if_true, List.nil_append, hbp]
      exact hsc
    · rw [if_neg hs] at h
      have hnext : ∀ r2 rest2, r :: rest = r2 :: rest2 → r2 ∉ decimalDigits := by
        intro r2 rest2 hrest
        simp only [List.cons.injEq] at hrest
        obtain ⟨rfl, -⟩ := hrest
        simpa using h
      have hbp := scanBasePrefix_no_zero ⟨r :: rest, []⟩ hnext
      have hsc := scan_after_sign [] (r :: rest) (Or.inl rfl) hnext
      simp only [ss.accept, hs, if_false, hbp]
      exact hsc

/-- C8, as amended: every input whose content (what is left when one pair of
surrounding quotes is trimmed) is not empty, is not `null` and, after leading
white space, does not start with an optional sign followed by a decimal digit,
is rejected: `UnmarshalJSON` returns an error and stores no value. -/
theorem UnmarshalJSON_rejects_non_numeric (b : Bytes) (hne : trimQuotes b ≠ [])
    (hnull : trimQuotes b ≠ ascii "null")
    (hstart : startsLikeNumber (SkipSpace (runes (trimQuotes b))) = false) :
    ∃ err, FlexibleInt.UnmarshalJSON b = .error err := by
  unfold FlexibleInt.UnmarshalJSON
  have hlen : ¬ ((trimQuotes b).length = 0 ∨ trimQuotes b = ascii "null") := by
    rintro (h | h)
    · exact hne (List.length_eq_zero.mp h)
    · exact hnull h
  simp only [if_neg hlen]
  unfold Sscan
  obtain ⟨err, h⟩ := scanInt_rejects _ hstart
  rw [h]
  exact ⟨err, rfl⟩

theorem UnmarshalJSON_rejects_non_numeric_witness :
    ∃ err, FlexibleInt.UnmarshalJSON (ascii "\"-_1\"") = .error err :=
  UnmarshalJSON_rejects_non_numeric (ascii "\"-_1\"") (by decide) (by decide) (by decide)

/-! ## Time limits: C11 -/

theorem NewClient_timeout (baseURL password : String) (c : Client)
    (h : NewClient baseURL password = .ok c) : c.httpClient.Timeout = defaultTimeout := by
  unfold NewClient at h
  split at h
  · cases h
  · split at h
    · cases h
    · cases h
      rfl

theorem request_ctx (c : Client) (ctx : Context) (op : Op) : (c.request ctx op).ctx = ctx := by
  cases op <;> rfl

theorem cycleContext_deadline (env : Env) (ctx : Context) (hist : List Event) :
    (cycleContext env ctx hist).deadline = some (cycleDeadline ctx (env.Now (sent hist))) := by
  unfold cycleContext WithTimeout cycleDeadline
  cases hd : ctx.deadline with
  | none => rfl
  | some cur =>
    dsimp only
    split
    · next hlt => rw [hd, Nat.min_eq_left hlt.le]
    · next hge => rw [Nat.min_eq_right (Nat.le_of_not_lt hge)]

/-- Every request of a cycle carries the context of the cycle. -/
theorem sent_Refresh_ctx (lib : Lib) (env : Env) (e : Exporter) (ctx : Context)
    (hist : List Event) :
    ∀ r ∈ sent (e.Refresh lib env ctx hist).events, r.ctx = cycleContext env ctx hist := by
  have hall : ∀ (ops : List Op) (s : List Request),
      s.Sublist (ops.map (e.client.request (cycleContext env ctx hist))) →
      ∀ r ∈ s, r.ctx = cycleContext env ctx hist := by
    intro ops s hs r hr
    obtain ⟨op, -, rfl⟩ := List.mem_map.mp (hs.subset hr)
    exact request_ctx _ _ _
  intro r hr
  rcases Refresh_spec lib env e ctx hist with ⟨err, t0, hrun, -, -, s0⟩ |
    ⟨t0, tl, res, -, -, s0, -, -, hev, -, -, sl, -⟩
  · rw [hrun] at hr
    exact hall [.Login] _ s0 r hr
  · rw [hev] at hr
    simp only [sent_append, List.mem_append] at hr
    rcases hr with (hr | hr) | hr
    · exact hall [.Login] _ s0 r hr
    · rcases scrape_spec lib env e (cycleContext env ctx hist) (hist ++ t0) with
        ⟨cpu, mem, wanInfo, wanStats, lanStats, w24, w5, -, -, -, -, hs⟩ |
        ⟨k, op', cause, oks, -, -, -, -, -, -, -, -, hs⟩
      · exact hall _ _ hs r hr
      · exact hall _ _ hs r hr
    · exact hall [.Logout] _ sl r hr

/-- What `Client.Do` makes of a client with a positive `Timeout` and a request
whose context expires at `d`: the request may run for the lesser of the
timeout and the time left to `d`. -/
theorem Do_limited (hc : HTTPClient) (router : Router) (reqs : List Request) (req : Request)
    (d : Nat) (hT : 0 < hc.Timeout) (hd : req.ctx.deadline = some d) :
    hc.Do router reqs req = (limitedEnv router hc.Timeout d).Do hc reqs req := by
  simp only [HTTPClient.Do, HTTPClient.deadline, timeBeforeContextDeadline, roundTrip,
    limitedEnv, hd, gt_iff_lt, hT, if_true, decide_eq_true_eq]
  by_cases h1 : router.Now reqs + hc.Timeout < d
  · have h2 : hc.Timeout < d - router.Now reqs := by omega
    have h3 : min hc.Timeout (d - router.Now reqs) = hc.Timeout := by omega
    rw [if_pos h1, h3, if_pos h2]
    by_cases h4 : router.Need reqs req < hc.Timeout
    · rw [if_pos h4, if_pos (by omega)]
    · rw [if_neg h4, if_neg (by omega)]
  · have h2 : ¬ hc.Timeout < d - router.Now reqs := by omega
    have h3 : min hc.Timeout (d - router.Now reqs) = d - router.Now reqs := by omega
    rw [if_neg h1, h3, if_neg h2]
    by_cases h4 : router.Now reqs + router.Need reqs req < d
    · rw [if_pos h4, if_pos (by omega)]
    · rw [if_neg h4, if_neg (by omega)]

/-- C11, counterexample: the client that `NewClient` returns has a `Timeout`
of 10 seconds. The first cycle of a process starts at time 0 under
`context.Background()`, so its context expires at 30 seconds. The device takes
15 seconds to answer the login, which is within the 30 seconds the cycle has
left; yet the login, the only request sent, is cut off by the timeout of the
client, and `Refresh` returns that error. -/
theorem NewClient_cuts_request_short :
    NewClient "http://192.168.1.254/" "secret" = .ok demoClient ∧
    demoClient.httpClient.Timeout = 10 * Second ∧
    slowLogin.Now [] = 0 ∧
    cycleContext (timedEnv slowLogin) Background [] = ⟨some (30 * Second)⟩ ∧
    slowLogin.Need [] (demoClient.loginRequest ⟨some (30 * Second)⟩) = 15 * Second ∧
    slowLogin.Now [] + 15 * Second < 30 * Second ∧
    sent ((New demoClient).Refresh demoLib (timedEnv slowLogin) Background []).events =
      [demoClient.loginRequest ⟨some (30 * Second)⟩] ∧
    ((New demoClient).Refresh demoLib (timedEnv slowLogin) Background []).err =
      some (.wrap "login" (.wrap "login request" (.lib
        ("Post \"http://192.168.1.254/api/v1/login\": context deadline exceeded " ++
          "(Client.Timeout exceeded while awaiting headers)")))) := by
  decide

/-- C11, as amended: `Refresh` sets one deadline for the cycle, 30 seconds
after its start (or the deadline of the context it is called with, when that
is sooner), and every request of the cycle, from the login to the logout,
carries the context with that deadline. It is not the only timeout: every
request is sent by the client that `NewClient` built, whose `Timeout` is 10
seconds. So, with `Client.Do` as net/http has it, a cycle runs against any
device as it runs where a request made at time `now` is answered exactly when
the device needs less than the lesser of 10 seconds and the time left to the
deadline, and otherwise fails, with the client timeout when 10 seconds are
less than the time left and with the expiry of the context when not. -/
theorem Refresh_request_limits (baseURL password : String) (c : Client)
    (h : NewClient baseURL password = .ok c) (lib : Lib) (g : gauges) (ctx : Context)
    (hist : List Event) :
    c.httpClient.Timeout = 10 * Second ∧
    (∀ env, ∀ r ∈ sent ((Exporter.mk c g).Refresh lib env ctx hist).events,
      r.ctx.deadline = some (cycleDeadline ctx (env.Now (sent hist)))) ∧
    (∀ start, cycleDeadline Background start = start + 30 * Second) ∧
    (∀ router, (Exporter.mk c g).Refresh lib (timedEnv router) ctx hist =
      (Exporter.mk c g).Refresh lib
        (limitedEnv router (10 * Second) (cycleDeadline ctx (router.Now (sent hist)))) ctx
        hist) := by
  have hT : c.httpClient.Timeout = 10 * Second := NewClient_timeout baseURL password c h
  refine ⟨hT, fun env r hr => ?_, fun start => rfl, fun router => ?_⟩
  · rw [sent_Refresh_ctx lib env _ ctx hist r hr]
    exact cycleContext_deadline env ctx hist
  · refine Refresh_congr_all lib ctx hist ⟨fun m op hop => rfl, fun reqs op hop => ?_, rfl⟩
    have hd : ((Exporter.mk c g).client.request
        (cycleContext (limitedEnv router (10 * Second)
          (cycleDeadline ctx (router.Now (sent hist)))) ctx hist) op).ctx.deadline =
        some (cycleDeadline ctx (router.Now (sent hist))) := by
      rw [request_ctx]
      exact cycleContext_deadline _ ctx hist
    have hpos : 0 < c.httpClient.Timeout := by rw [hT]; decide
    have hdo := Do_limited c.httpClient router reqs _ _ hpos hd
    rw [hT] at hdo
    exact hdo

theorem Refresh_request_limits_witness :
    demoClient.httpClient.Timeout = 10 * Second ∧
      (New demoClient).Refresh demoLib (timedEnv slowDevice) Background [] =
        (New demoClient).Refresh demoLib
          (limitedEnv slowDevice (10 * Second) (cycleDeadline Background (slowDevice.Now (sent []))))
          Background [] :=
  ⟨(Refresh_request_limits "http://192.168.1.254/" "secret" demoClient (by decide) demoLib
      (New demoClient).g Background []).1,
    (Refresh_request_limits "http://192.168.1.254/" "secret" demoClient (by decide) demoLib
      (New demoClient).g Background []).2.2.2 slowDevice⟩

/-! ## What a reader can see while a cycle publishes: C12 -/

theorem updates_length (lib : Lib) (cpu : DeviceCPU) (mem : DeviceMem) (wanInfo : WanIPInfo)
    (wanStats : WanIPStats) (lanStats : LanStats) (w24 w5 : WirelessStats) :
    (Exporter.updates lib cpu mem wanInfo wanStats lanStats w24 w5).length = 24 := rfl

theorem after_all (g : gauges) (lib : Lib) (cpu : DeviceCPU) (mem : DeviceMem)
    (wanInfo : WanIPInfo) (wanStats : WanIPStats) (lanStats : LanStats)
    (w24 w5 : WirelessStats) (k : Nat) (hk : 24 ≤ k) :
    g.after (Exporter.updates lib cpu mem wanInfo wanStats lanStats w24 w5) k =
      g.apply (Exporter.updates lib cpu mem wanInfo wanStats lanStats w24 w5) := by
  unfold gauges.after
  rw [List.take_of_length_le (by rw [updates_length]; exact hk)]

/-- The gauges after `k` writes, told gauge by gauge. -/
theorem after_eq_mixed (g : gauges) (lib : Lib) (cpu : DeviceCPU) (mem : DeviceMem)
    (wanInfo : WanIPInfo) (wanStats : WanIPStats) (lanStats : LanStats)
    (w24 w5 : WirelessStats) (k : Nat) :
    g.after (Exporter.updates lib cpu mem wanInfo wanStats lanStats w24 w5) k =
      mixed g (g.apply (Exporter.updates lib cpu mem wanInfo wanStats lanStats w24 w5))
        (fun _ => k)
        (g.after (Exporter.updates lib cpu mem wanInfo wanStats lanStats w24 w5) k).wanInfo := by
  rcases Nat.lt_or_ge k 24 with h | h
  · interval_cases k <;> rfl
  · rw [after_all g lib cpu mem wanInfo wanStats lanStats w24 w5 k h]
    simp only [mixed]
    simp only [show 1 ≤ k by omega, show 2 ≤ k by omega, show 3 ≤ k by omega,
      show 4 ≤ k by omega, show 5 ≤ k by omega, show 6 ≤ k by omega, show 7 ≤ k by omega,
      show 8 ≤ k by omega, show 9 ≤ k by omega, show 10 ≤ k by omega, show 11 ≤ k by omega,
      show 12 ≤ k by omega, show 13 ≤ k by omega, show 14 ≤ k by omega, show 15 ≤ k by omega,
      show 19 ≤ k by omega, show 20 ≤ k by omega, show 21 ≤ k by omega, show 22 ≤ k by omega,
      show 23 ≤ k by omega, show 24 ≤ k by omega, if_true]

theorem apply_updates_wanInfo (g : gauges) (lib : Lib) (cpu : DeviceCPU) (mem : DeviceMem)
    (wanInfo : WanIPInfo) (wanStats : WanIPStats) (lanStats : LanStats)
    (w24 w5 : WirelessStats) :
    (g.apply (Exporter.updates lib cpu mem wanInfo wanStats lanStats w24 w5)).wanInfo =
      [(wanInfoLabels wanInfo, 1)] := by
  simp [gauges.apply, Exporter.updates, GaugeVec.Reset, GaugeVec.WithLabelValues, GaugeVec.Set]

/-- The info vector after `k` writes: untouched before its `Reset`, empty right
after it, and then holding the one new entry, with the value 1 from the `Set`
on. -/
theorem after_wanInfo (g : gauges) (lib : Lib) (cpu : DeviceCPU) (mem : DeviceMem)
    (wanInfo : WanIPInfo) (wanStats : WanIPStats) (lanStats : LanStats)
    (w24 w5 : WirelessStats) (k : Nat) :
    (k < 16 →
      (g.after (Exporter.updates lib cpu mem wanInfo wanStats lanStats w24 w5) k).wanInfo =
        g.wanInfo) ∧
    (k = 16 →
      (g.after (Exporter.updates lib cpu mem wanInfo wanStats lanStats w24 w5) k).wanInfo = []) ∧
    (17 ≤ k →
      ((g.after (Exporter.updates lib cpu mem wanInfo wanStats lanStats w24 w5) k).wanInfo).map
        Prod.fst = [wanInfoLabels wanInfo]) ∧
    (18 ≤ k →
      (g.after (Exporter.updates lib cpu mem wanInfo wanStats lanStats w24 w5) k).wanInfo =
        [(wanInfoLabels wanInfo, 1)]) := by
  rcases Nat.lt_or_ge k 24 with h | h
  · interval_cases k <;>
      simp [gauges.after, gauges.apply, Exporter.updates, GaugeVec.Reset,
        GaugeVec.WithLabelValues, GaugeVec.Set]
  · rw [after_all g lib cpu mem wanInfo wanStats lanStats w24 w5 k h, apply_updates_wanInfo]
    refine ⟨fun h16 => ?_, fun h16 => ?_, fun _ => rfl, fun _ => rfl⟩ <;> omega

/-- What a scrape reads during the writes of a cycle, told collector by
collector. -/
theorem Gather_eq_mixed (g : gauges) (lib : Lib) (cpu : DeviceCPU) (mem : DeviceMem)
    (wanInfo : WanIPInfo) (wanStats : WanIPStats) (lanStats : LanStats)
    (w24 w5 : WirelessStats) (moment : Collector → Nat) :
    Gather g (Exporter.updates lib cpu mem wanInfo wanStats lanStats w24 w5) moment =
      mixed g (g.apply (Exporter.updates lib cpu mem wanInfo wanStats lanStats w24 w5)) moment
        (Gather g (Exporter.updates lib cpu mem wanInfo wanStats lanStats w24 w5) moment).wanInfo := by
  have key := fun k => after_eq_mixed g lib cpu mem wanInfo wanStats lanStats w24 w5 k
  simp only [Gather, mixed]
  congr 1
  · rw [key]; rfl
  · rw [key]; rfl
  · rw [key]; rfl
  · rw [key]; rfl
  · rw [key]; rfl
  · rw [key]; rfl
  · rw [key]; rfl
  · rw [key]; rfl
  · rw [key]; rfl
  · rw [key]; rfl
  · rw [key]; rfl
  · rw [key]; rfl
  · rw [key]; rfl
  · rw [key]; rfl
  · rw [key]; rfl
  · rw [key]; rfl
  · rw [key]; rfl
  · rw [key]; rfl
  · rw [key]; rfl
  · rw [key]; rfl
  · rw [key]; rfl

theorem Gather_all (g : gauges) (lib : Lib) (cpu : DeviceCPU) (mem : DeviceMem)
    (wanInfo : WanIPInfo) (wanStats : WanIPStats) (lanStats : LanStats)
    (w24 w5 : WirelessStats) (moment : Collector → Nat) (h : ∀ c, 24 ≤ moment c) :
    Gather g (Exporter.updates lib cpu mem wanInfo wanStats lanStats w24 w5) moment =
      g.apply (Exporter.updates lib cpu mem wanInfo wanStats lanStats w24 w5) := by
  simp only [Gather, after_all _ _ _ _ _ _ _ _ _ _ (h _)]

/-- C12, counterexample: the second cycle of a process succeeds as the first
did, and a scrape during its writes reads what neither cycle published: with
one write done, the new CPU total next to the old user time; with the CPU
total read before the first write and the rest after the last, the old CPU
total next to the new user time; with sixteen writes done, no WAN info entry,
although the first cycle published one and the second does. -/
theorem Refresh_publish_not_atomic :
    firstCycle.err = none ∧ secondCycle.err = none ∧
    secondCycle.g = firstCycle.g.apply secondWrites ∧
    (firstCycle.g.cpuTotal = 0 ∧ firstCycle.g.cpuUser = 0 ∧
      firstCycle.g.wanInfo = [(wanInfoLabels wanInfoUp, 1)]) ∧
    (secondCycle.g.cpuTotal = 250 ∧ secondCycle.g.cpuUser = 40 ∧
      secondCycle.g.wanInfo = [(wanInfoLabels wanInfoUp, 1)]) ∧
    ((Gather firstCycle.g secondWrites (fun _ => 1)).cpuTotal = 250 ∧
      (Gather firstCycle.g secondWrites (fun _ => 1)).cpuUser = 0) ∧
    (Gather firstCycle.g secondWrites (fun _ => 1) ≠ firstCycle.g ∧
      Gather firstCycle.g secondWrites (fun _ => 1) ≠ secondCycle.g) ∧
    ((Gather firstCycle.g secondWrites lateButTotal).cpuTotal = 0 ∧
      (Gather firstCycle.g secondWrites lateButTotal).cpuUser = 40) ∧
    (Gather firstCycle.g secondWrites lateButTotal ≠ firstCycle.g ∧
      Gather firstCycle.g secondWrites lateButTotal ≠ secondCycle.g) ∧
    (Gather firstCycle.g secondWrites (fun _ => 16)).wanInfo = [] := by
  decide

/-- C12, as amended: publishing is not atomic. A cycle that succeeds publishes
by single writes in the order of the source, made after all seven fetches have
returned, and a scrape made in the meantime reads every collector at a moment
of its own. For the payloads the fetches of the cycle returned, whatever the
moments are: each gauge read is the value from before the cycle when its write
is not yet done and the value `Refresh` leaves when it is; the WAN info vector
read holds its entries from before the cycle until its `Reset`, no entry right
after the `Reset`, and from then on the one entry of the cycle, as `Refresh`
leaves it (with the value 1) once the writes on it are done. A scrape that
reads everything before the first write reads the values from before the
cycle, and one that reads everything after the last write reads the values
`Refresh` leaves. -/
theorem Refresh_publishes_gauge_by_gauge (lib : Lib) (env : Env) (e : Exporter) (ctx : Context)
    (hist : List Event) (hok : (e.Refresh lib env ctx hist).err = none) :
    ∃ cpu mem wanInfo wanStats lanStats w24 w5,
      (∀ p ∈ [(Op.FetchCPU, Except.ok (Value.cpu cpu)), (Op.FetchMem, Except.ok (Value.mem mem)),
          (Op.FetchWanIPInfo, Except.ok (Value.wanInfo wanInfo)),
          (Op.FetchWanIPStats, Except.ok (Value.wanStats wanStats)),
          (Op.FetchLanStats, Except.ok (Value.lanStats lanStats)),
          (Op.FetchWireless24Stats, Except.ok (Value.wireless w24)),
          (Op.FetchWireless5Stats, Except.ok (Value.wireless w5))],
        p ∈ returns (e.Refresh lib env ctx hist).events) ∧
      (∀ moment,
        Gather e.g (Exporter.updates lib cpu mem wanInfo wanStats lanStats w24 w5) moment =
          mixed e.g (e.Refresh lib env ctx hist).g moment
            (Gather e.g (Exporter.updates lib cpu mem wanInfo wanStats lanStats w24 w5)
              moment).wanInfo) ∧
      (∀ moment,
        (moment .wanInfo < 16 →
          (Gather e.g (Exporter.updates lib cpu mem wanInfo wanStats lanStats w24 w5)
            moment).wanInfo = e.g.wanInfo) ∧
        (moment .wanInfo = 16 →
          (Gather e.g (Exporter.updates lib cpu mem wanInfo wanStats lanStats w24 w5)
            moment).wanInfo = []) ∧
        (17 ≤ moment .wanInfo →
          ((Gather e.g (Exporter.updates lib cpu mem wanInfo wanStats lanStats w24 w5)
            moment).wanInfo).map Prod.fst = [wanInfoLabels wanInfo]) ∧
        (18 ≤ moment .wanInfo →
          (Gather e.g (Exporter.updates lib cpu mem wanInfo wanStats lanStats w24 w5)
            moment).wanInfo = (e.Refresh lib env ctx hist).g.wanInfo)) ∧
      (e.Refresh lib env ctx hist).g.wanInfo = [(wanInfoLabels wanInfo, 1)] ∧
      Gather e.g (Exporter.updates lib cpu mem wanInfo wanStats lanStats w24 w5) (fun _ => 0) =
        e.g ∧
      (∀ moment, (∀ c, 24 ≤ moment c) →
        Gather e.g (Exporter.updates lib cpu mem wanInfo wanStats lanStats w24 w5) moment =
          (e.Refresh lib env ctx hist).g) := by
  rcases Refresh_spec lib env e ctx hist with ⟨err, t0, hrun, -, r0, -⟩ |
    ⟨t0, tl, res, -, r0, -, herr, hg, hev, -, rl, -⟩
  · rw [hrun] at hok
    cases hok
  · rcases scrape_spec lib env e (cycleContext env ctx hist) (hist ++ t0) with
      ⟨cpu, mem, wanInfo, wanStats, lanStats, w24, w5, -, hg', -, hr, -⟩ |
      ⟨k, op', cause, oks, -, -, he, -⟩
    · have hinfo := apply_updates_wanInfo e.g lib cpu mem wanInfo wanStats lanStats w24 w5
      refine ⟨cpu, mem, wanInfo, wanStats, lanStats, w24, w5, ?_, ?_, ?_, ?_, rfl, ?_⟩
      · intro p hp
        rw [hev]
        simp only [returns_append, hr, List.mem_append]
        exact Or.inl (Or.inr hp)
      · intro moment
        rw [hg, hg']
        exact Gather_eq_mixed e.g lib cpu mem wanInfo wanStats lanStats w24 w5 moment
      · intro moment
        rw [hg, hg', hinfo]
        exact after_wanInfo e.g lib cpu mem wanInfo wanStats lanStats w24 w5 (moment .wanInfo)
      · rw [hg, hg']
        exact hinfo
      · intro moment hm
        rw [hg, hg']
        exact Gather_all e.g lib cpu mem wanInfo wanStats lanStats w24 w5 moment hm
    · rw [herr, he] at hok
      cases hok

theorem Refresh_publishes_gauge_by_gauge_witness :
    (afterFirst.Refresh demoLib envBusy Background firstCycle.events).err = none ∧
      ∃ cpu mem wanInfo wanStats lanStats w24 w5,
        (Op.FetchCPU, Except.ok (Value.cpu cpu)) ∈
            returns (afterFirst.Refresh demoLib envBusy Background firstCycle.events).events ∧
          ∀ moment,
            Gather afterFirst.g
                (Exporter.updates demoLib cpu mem wanInfo wanStats lanStats w24 w5) moment =
              mixed afterFirst.g
                (afterFirst.Refresh demoLib envBusy Background firstCycle.events).g moment
                (Gather afterFirst.g
                  (Exporter.updates demoLib cpu mem wanInfo wanStats lanStats w24 w5)
                  moment).wanInfo :=
  ⟨by decide,
    match Refresh_publishes_gauge_by_gauge demoLib envBusy afterFirst Background
      firstCycle.events (by decide) with
    | ⟨cpu, mem, wanInfo, wanStats, lanStats, w24, w5, hret, hmix, _⟩ =>
      ⟨cpu, mem, wanInfo, wanStats, lanStats, w24, w5,
        hret _ (List.mem_cons_self _ _), hmix⟩⟩

end BBox
